import Mathlib

/-!
# Seed-backup verification page (`ui/page/seedbackup/verify_seed.go`)

A shallow embedding of the quiz logic of `VerifySeedPage`:

* Go slices of strings are `List String`; Go `int` indices are `Int`
  (lengths here are far below `2^63`, so no wrap-around is involved);
* a run-time panic (index out of range, slice bounds out of range,
  `rand.Intn` with a non-positive argument) is an `Except.error` carrying a
  `Fault`;
* the process-wide random source of `math/rand` is an explicit stream
  `Rand` threaded through the calls that draw from it; quantifying over
  all streams covers every outcome of the draws;
* `strings.Split (s, " ")` and `strings.Join (ws, " ")` are modelled on the
  character lists of the strings.
-/

namespace seedbackup

/-! ## Run-time faults and slices -/

/-- The run-time panics that the modelled code can raise. -/
inductive Fault where
  /-- `s[i]` with `i` outside `0 ≤ i < len(s)`. -/
  | indexOutOfRange
  /-- `s[a:b]` with bounds outside the slice. -/
  | sliceBoundsOutOfRange
  /-- `rand.Intn(n)` with `n ≤ 0` ("invalid argument to Intn"). -/
  | invalidArgumentToIntn
  deriving DecidableEq, Repr

deriving instance DecidableEq for Except

/-- Go's `len(s)` as an `int`. -/
def len {α : Type} (s : List α) : Int := (s.length : Int)

/-- Go's index expression `s[i]`: panics unless `0 ≤ i < len(s)`. -/
def index {α : Type} (s : List α) (i : Int) : Except Fault α :=
  if 0 ≤ i then
    match s.get? i.toNat with
    | some a => .ok a
    | none => .error .indexOutOfRange
  else .error .indexOutOfRange

/-- Go's slice expression `s[:hi]`, with the upper bound taken against the
length: panics unless `0 ≤ hi ≤ len(s)`. (Go allows `hi` up to the capacity;
in `removeSeed` the companion `s[hi+1:]` panics for every `hi ≥ len(s)`, so
the result of `removeSeed` is the same.) -/
def sliceTo {α : Type} (s : List α) (hi : Int) : Except Fault (List α) :=
  if 0 ≤ hi ∧ hi ≤ len s then .ok (s.take hi.toNat) else .error .sliceBoundsOutOfRange

/-- Go's slice expression `s[lo:]`: panics unless `0 ≤ lo ≤ len(s)`. -/
def sliceFrom {α : Type} (s : List α) (lo : Int) : Except Fault (List α) :=
  if 0 ≤ lo ∧ lo ≤ len s then .ok (s.drop lo.toNat) else .error .sliceBoundsOutOfRange

/-! ## The random source (`math/rand`) -/

/-- The stream of raw values the random source will deliver. -/
abbrev Rand := Nat → Nat

/-- `rand.Intn(n)`: panics when `n ≤ 0`, otherwise returns a value in
`[0, n)` and advances the source. -/
def rand.Intn (n : Int) (rnd : Rand) : Except Fault (Int × Rand) :=
  if n ≤ 0 then .error .invalidArgumentToIntn
  else .ok (((rnd 0 % n.toNat : Nat) : Int), fun k => rnd (k + 1))

/-- The loop of `rand.Shuffle`: `for ; i > 0; i-- { j := Intn(i+1); swap(i, j) }`. -/
def rand.Shuffle.loop {σ : Type} (swap : Int → Int → σ → Except Fault σ) :
    Nat → Rand → σ → Except Fault (σ × Rand)
  | 0, rnd, s => .ok (s, rnd)
  | i + 1, rnd, s => do
    let (j, rnd) ← rand.Intn (((i + 1 : Nat) : Int) + 1) rnd
    let s ← swap ((i + 1 : Nat) : Int) j s
    rand.Shuffle.loop swap i rnd s

/-- `rand.Shuffle(n, swap)` for `n ≥ 0`: a Fisher-Yates pass from `n-1` down
to `1`. -/
def rand.Shuffle {σ : Type} (n : Int) (swap : Int → Int → σ → Except Fault σ)
    (rnd : Rand) (s : σ) : Except Fault (σ × Rand) :=
  rand.Shuffle.loop swap (n - 1).toNat rnd s

/-! ## `strings.Split` and `strings.Join` -/

/-- Adds a character in front of the first field of a split. -/
def strings.consHead (c : Char) : List (List Char) → List (List Char)
  | [] => [[c]]
  | w :: ws => (c :: w) :: ws

/-- The fields of a character sequence between occurrences of `sep`; a
sequence without `sep` (the empty one included) is a single field. -/
def strings.splitChars (sep : Char) : List Char → List (List Char)
  | [] => [[]]
  | c :: cs =>
    if c = sep then [] :: strings.splitChars sep cs
    else strings.consHead c (strings.splitChars sep cs)

/-- The fields joined with `sep` between consecutive ones. -/
def strings.joinChars (sep : List Char) : List (List Char) → List Char
  | [] => []
  | [w] => w
  | w :: w2 :: ws => w ++ sep ++ strings.joinChars sep (w2 :: ws)

/-- `strings.Split(s, sep)` for a separator `sep` of one character (the page
calls it with `" "`). -/
def strings.Split (s : String) (sep : Char) : List String :=
  (strings.splitChars sep s.data).map String.mk

/-- `strings.Join(elems, sep)`. -/
def strings.Join (elems : List String) (sep : String) : String :=
  String.mk (strings.joinChars sep.data (elems.map String.data))

/-! ## Quiz entries -/

/-- The part of `cryptomaterial.Clickable` that `getMultiSeed` sets. -/
structure Clickable where
  hoverable : Bool
  Radius : Nat
  deriving DecidableEq, Repr

/-- One quiz entry: the candidate words, their click targets and the
selected candidate (`-1` = unanswered). -/
structure shuffledSeedWords where
  selectedIndex : Int
  words : List String
  clickables : List Clickable
  deriving DecidableEq, Repr

/-- `seedPosition`: the `for i := range allSeeds` loop, with `i` the current
index and the list the part of the slice still to be visited. -/
def seedPosition.loop (seed : String) : List String → Int → Int
  | [], _ => -1
  | w :: rest, i => if w = seed then i else seedPosition.loop seed rest (i + 1)

/-- `seedPosition(seed, allSeeds)`. -/
def seedPosition (seed : String) (allSeeds : List String) : Int :=
  seedPosition.loop seed allSeeds 0

/-- `removeSeed(allSeeds, index)` = `append(allSeeds[:index], allSeeds[index+1:]...)`.
The `append` writes into the backing array of `allSeeds`; the value returned
is the one modelled, the callers never read the argument slice again. -/
def removeSeed (allSeeds : List String) (index : Int) : Except Fault (List String) := do
  let front ← sliceTo allSeeds index
  let back ← sliceFrom allSeeds (index + 1)
  return front ++ back

/-- The closure `clickable` of `getMultiSeed`: `pg.Theme.NewClickable(true)`
with `Radius = cryptomaterial.Radius(8)`. -/
def clickable : Clickable := { hoverable := true, Radius := 8 }

/-- The swap closure passed to `rand.Shuffle` in `getMultiSeed`. -/
def swapWords (i j : Int) (words : List String) : Except Fault (List String) := do
  let wi ← index words i
  let wj ← index words j
  return (words.set i.toNat wj).set j.toNat wi

/-- The `for i := 0; i < 3; i++` loop of `getMultiSeed`, with `n` the number
of iterations still to run. -/
def getMultiSeed.loop :
    Nat → shuffledSeedWords → List String → Rand →
      Except Fault (shuffledSeedWords × List String × Rand)
  | 0, shuffledSeed, allSeeds, rnd => .ok (shuffledSeed, allSeeds, rnd)
  | n + 1, shuffledSeed, allSeeds, rnd => do
    let (randomSeed, rnd) ← rand.Intn (len allSeeds) rnd
    let w ← index allSeeds randomSeed
    let shuffledSeed := { shuffledSeed with
      words := shuffledSeed.words ++ [w],
      clickables := shuffledSeed.clickables ++ [clickable] }
    let allSeeds ← removeSeed allSeeds randomSeed
    getMultiSeed.loop n shuffledSeed allSeeds rnd

/-- `VerifySeedPage.getMultiSeed(realSeedIndex, allSeeds)`. -/
def getMultiSeed (realSeedIndex : Int) (allSeeds : List String) (rnd : Rand) :
    Except Fault (shuffledSeedWords × Rand) := do
  let shuffledSeed : shuffledSeedWords :=
    { selectedIndex := -1, words := [], clickables := [] }
  let w ← index allSeeds realSeedIndex
  let shuffledSeed := { shuffledSeed with
    words := shuffledSeed.words ++ [w],
    clickables := shuffledSeed.clickables ++ [clickable] }
  let allSeeds ← removeSeed allSeeds realSeedIndex
  let (shuffledSeed, _, rnd) ← getMultiSeed.loop 3 shuffledSeed allSeeds rnd
  let (words, rnd) ← rand.Shuffle (len shuffledSeed.words) swapWords rnd shuffledSeed.words
  return ({ shuffledSeed with words := words }, rnd)

/-! ## The page -/

/-- `layout.Axis`. -/
inductive Axis where
  | Horizontal
  | Vertical
  deriving DecidableEq, Repr

/-- The part of `layout.List` that the page sets: its axis. -/
structure LayoutList where
  Axis : Axis
  deriving DecidableEq, Repr

/-- The state of a `modal.CreatePasswordModal` that the page configures and
that the verification callback changes. -/
structure CreatePasswordModal where
  nameEnabled : Bool
  confirmPasswordEnabled : Bool
  title : String
  isLoading : Bool
  /-- The text set by `SetError` (empty: no error shown). -/
  serverError : String
  dismissed : Bool
  deriving DecidableEq, Repr

/-- The modals the page asks its parent window to show. -/
inductive Modal where
  | createPassword (m : CreatePasswordModal)
  | error (msg : String)
  deriving DecidableEq, Repr

/-- The pages the page asks its parent navigator to display. -/
inductive Page where
  | BackupSuccessPage
  deriving DecidableEq, Repr

/-- The part of `cryptomaterial.Button` the page uses. -/
structure Button where
  Text : String
  enabled : Bool
  deriving DecidableEq, Repr

/-- The state of `VerifySeedPage` together with the two hosts it talks to:
`shownModals` are the modals passed to `ParentWindow().ShowModal` and
`displayed` the pages passed to `ParentNavigator().Display`, oldest first. -/
structure VerifySeedPage where
  seed : String
  multiSeedList : List shuffledSeedWords
  actionButton : Button
  listGroupSeed : List LayoutList
  shownModals : List Modal
  displayed : List Page
  deriving DecidableEq, Repr

/-- `NewVerifySeedPage(l, wallet, seed, redirect)`: the page before its first
display, with no quiz entries. -/
def NewVerifySeedPage (seed : String) : VerifySeedPage :=
  { seed := seed, multiSeedList := [], actionButton := { Text := "Verify", enabled := true },
    listGroupSeed := [], shownModals := [], displayed := [] }

/-- The `for _, word := range seedWords` loop of `OnNavigatedTo`; the list is
the part of `seedWords` still to be visited. `PGPWordList` is the value of
`dcr.PGPWordList()`, which returns a new slice at every call. -/
def OnNavigatedTo.loop (PGPWordList allSeeds : List String) :
    List String → List LayoutList → List shuffledSeedWords → Rand →
      Except Fault (List LayoutList × List shuffledSeedWords × Rand)
  | [], listGroupSeed, multiSeedList, rnd => .ok (listGroupSeed, multiSeedList, rnd)
  | word :: rest, listGroupSeed, multiSeedList, rnd => do
    let listGroupSeed := listGroupSeed ++ [{ Axis := Axis.Horizontal }]
    let index := seedPosition word allSeeds
    let (shuffledSeed, rnd) ← getMultiSeed index PGPWordList rnd
    let multiSeedList := multiSeedList ++ [shuffledSeed]
    OnNavigatedTo.loop PGPWordList allSeeds rest listGroupSeed multiSeedList rnd

/-- `VerifySeedPage.OnNavigatedTo()`. `rand.Seed(time.Now().UnixNano())`
fixes the stream `rnd` that the draws consume. -/
def OnNavigatedTo (PGPWordList : List String) (pg : VerifySeedPage) (rnd : Rand) :
    Except Fault (VerifySeedPage × Rand) := do
  let allSeeds := PGPWordList
  let seedWords := strings.Split pg.seed ' '
  let (listGroupSeed, multiSeedList, rnd) ←
    OnNavigatedTo.loop PGPWordList allSeeds seedWords [] [] rnd
  return ({ pg with multiSeedList := multiSeedList, listGroupSeed := listGroupSeed }, rnd)

/-- The loop of `allSeedsSelected` over the entries still to be visited. -/
def allSeedsSelected.loop : List shuffledSeedWords → Bool
  | [] => true
  | multiSeed :: rest =>
    if multiSeed.selectedIndex = -1 then false else allSeedsSelected.loop rest

/-- `VerifySeedPage.allSeedsSelected()`. -/
def allSeedsSelected (pg : VerifySeedPage) : Bool :=
  allSeedsSelected.loop pg.multiSeedList

/-- The loop of `selectedSeedPhrase` over the entries still to be visited,
with the `wordList` built so far. -/
def selectedSeedPhrase.loop : List shuffledSeedWords → List String → Except Fault (List String)
  | [], wordList => .ok wordList
  | multiSeed :: rest, wordList =>
    if multiSeed.selectedIndex ≠ -1 then do
      let w ← index multiSeed.words multiSeed.selectedIndex
      selectedSeedPhrase.loop rest (wordList ++ [w])
    else selectedSeedPhrase.loop rest wordList

/-- `VerifySeedPage.selectedSeedPhrase()`. -/
def selectedSeedPhrase (pg : VerifySeedPage) : Except Fault String := do
  let wordList ← selectedSeedPhrase.loop pg.multiSeedList []
  return strings.Join wordList " "

/-- The password modal that `verifySeed` builds. -/
def NewCreatePasswordModal : CreatePasswordModal :=
  { nameEnabled := false, confirmPasswordEnabled := false,
    title := "Confirm to verify seed", isLoading := false, serverError := "",
    dismissed := false }

/-- `VerifySeedPage.verifySeed()`: shows the password modal. -/
def verifySeed (pg : VerifySeedPage) : VerifySeedPage :=
  { pg with shownModals := pg.shownModals ++ [Modal.createPassword NewCreatePasswordModal] }

/-- The positive-button callback that `verifySeed` installs on the password
modal `m`. `VerifySeedForWallet seed password` is the `error` result of the
wallet's verification (`none` for `nil`, otherwise the text of
`err.Error()`); `ErrInvalid` is `dcr.ErrInvalid` and `StrSeedValidationFailed`
the text of `values.String(values.StrSeedValidationFailed)`. A fault of
`selectedSeedPhrase` is a fault of the callback. -/
def verifySeed.callback (VerifySeedForWallet : String → String → Option String)
    (ErrInvalid StrSeedValidationFailed : String)
    (pg : VerifySeedPage) (password : String) (m : CreatePasswordModal) :
    Except Fault (Bool × VerifySeedPage × CreatePasswordModal) := do
  let seed ← selectedSeedPhrase pg
  match VerifySeedForWallet seed password with
  | some err =>
    if err = ErrInvalid then
      let msg := StrSeedValidationFailed
      let errModal := Modal.error msg
      let pg := { pg with shownModals := pg.shownModals ++ [errModal] }
      let m := { m with dismissed := true }
      return (false, pg, m)
    else
      let m := { m with isLoading := false }
      let m := { m with serverError := err }
      return (false, pg, m)
  | none =>
    let m := { m with dismissed := true }
    let pg := { pg with displayed := pg.displayed ++ [Page.BackupSuccessPage] }
    return (true, pg, m)

/-- The input events of one frame: how many clicks each candidate button
(entry `i`, candidate `j`) and the action button have queued; each call of
`Clicked()` consumes one. -/
structure Events where
  candidate : Nat → Nat → Nat
  actionButton : Nat

/-- The frame in which candidate `j` of entry `i` was clicked once, no other
candidate was clicked, and the action button was clicked `a` times. -/
def Events.click (i j a : Nat) : Events :=
  { candidate := fun i' j' => if i' = i ∧ j' = j then 1 else 0, actionButton := a }

/-- The frame in which, in every entry `i`, candidate `sel i` was clicked once,
and the action button was clicked `a` times. -/
def Events.select (sel : Nat → Nat) (a : Nat) : Events :=
  { candidate := fun i j => if j = sel i then 1 else 0, actionButton := a }

/-- The loop `for clickable.Clicked() { pg.multiSeedList[i].selectedIndex = j }`
with `n` queued clicks, acting on entry `i`. -/
def HandleUserInteractions.clicked (j : Int) : Nat → shuffledSeedWords → shuffledSeedWords
  | 0, entry => entry
  | n + 1, entry => HandleUserInteractions.clicked j n { entry with selectedIndex := j }

/-- The loop `for j, clickable := range multiSeed.clickables` on entry `i`;
the list is the part of the clickables still to be visited, `j` the current
index and `clicks j` the clicks queued on candidate `j`. -/
def HandleUserInteractions.inner (clicks : Nat → Nat) :
    List Clickable → Nat → shuffledSeedWords → shuffledSeedWords
  | [], _, entry => entry
  | _ :: rest, j, entry =>
    HandleUserInteractions.inner clicks rest (j + 1)
      (HandleUserInteractions.clicked (j : Int) (clicks j) entry)

/-- The loop `for i, multiSeed := range pg.multiSeedList`; the list is the part
of the entries still to be visited and `i` the current index. -/
def HandleUserInteractions.outer (ev : Events) :
    List shuffledSeedWords → Nat → List shuffledSeedWords
  | [], _ => []
  | multiSeed :: rest, i =>
    HandleUserInteractions.inner (ev.candidate i) multiSeed.clickables 0 multiSeed ::
      HandleUserInteractions.outer ev rest (i + 1)

/-- The loop `for pg.actionButton.Clicked() { ... }` with `n` queued clicks. -/
def HandleUserInteractions.action : Nat → VerifySeedPage → VerifySeedPage
  | 0, pg => pg
  | n + 1, pg =>
    HandleUserInteractions.action n (if allSeedsSelected pg then verifySeed pg else pg)

/-- `VerifySeedPage.HandleUserInteractions()` on the events of one frame. -/
def HandleUserInteractions (pg : VerifySeedPage) (ev : Events) : VerifySeedPage :=
  let pg := { pg with multiSeedList := HandleUserInteractions.outer ev pg.multiSeedList 0 }
  HandleUserInteractions.action ev.actionButton pg

/-- `VerifySeedPage.OnNavigatedFrom()`: the body is empty. -/
def OnNavigatedFrom (pg : VerifySeedPage) : VerifySeedPage := pg

/-- The state effect of `layoutDesktop`: the action button is enabled or
disabled by `pg.actionButton.SetEnabled(pg.allSeedsSelected())` before the page
is drawn. The drawing itself is not modelled. -/
def layoutDesktop (pg : VerifySeedPage) : VerifySeedPage :=
  { pg with actionButton := { pg.actionButton with enabled := allSeedsSelected pg } }

/-- The state effect of `layoutMobile`, which makes the same `SetEnabled` call. -/
def layoutMobile (pg : VerifySeedPage) : VerifySeedPage :=
  { pg with actionButton := { pg.actionButton with enabled := allSeedsSelected pg } }

/-- `VerifySeedPage.Layout(gtx)`, with `currentAppWidth` the value of
`pg.Load.GetCurrentAppWidth()` and `startMobileView` that of
`gtx.Dp(values.StartMobileView)`. -/
def Layout (pg : VerifySeedPage) (currentAppWidth startMobileView : Int) : VerifySeedPage :=
  if currentAppWidth ≤ startMobileView then layoutMobile pg else layoutDesktop pg

/-- The selection of an entry is `-1` (unanswered) or the index of one of its
words. -/
def selectionInRange (entry : shuffledSeedWords) : Prop :=
  entry.selectedIndex = -1 ∨ (0 ≤ entry.selectedIndex ∧ entry.selectedIndex < len entry.words)

instance selectionInRange.decidable (entry : shuffledSeedWords) :
    Decidable (selectionInRange entry) := by
  unfold selectionInRange
  infer_instance

/-- The result of `selectedSeedPhrase` as the specification words it: the
selected candidate word of every answered entry, in entry order; an unanswered
entry contributes nothing. -/
def answeredWords (entries : List shuffledSeedWords) : List String :=
  entries.filterMap
    (fun entry =>
      if entry.selectedIndex = -1 then none else entry.words.get? entry.selectedIndex.toNat)

/-! ## Sample inputs -/

/-- A ten-word vocabulary. -/
def sampleVocabulary : List String :=
  ["alpha", "bravo", "charlie", "delta", "echo", "foxtrot", "golf", "hotel", "india", "juliet"]

/-- A stream of raw random values. -/
def sampleRand : Rand := fun k => 7 * k + 3

/-- A page whose quiz of two entries is fully answered. -/
def answeredPage : VerifySeedPage :=
  { NewVerifySeedPage "alpha bravo" with
    multiSeedList :=
      [{ selectedIndex := 2, words := ["delta", "golf", "alpha", "echo"],
         clickables := List.replicate 4 clickable },
       { selectedIndex := 0, words := ["hotel", "bravo", "india", "echo"],
         clickables := List.replicate 4 clickable }],
    listGroupSeed := List.replicate 2 { Axis := Axis.Horizontal } }

/-- A page whose quiz of three entries has its second entry unanswered. -/
def partlyAnsweredPage : VerifySeedPage :=
  { NewVerifySeedPage "alpha bravo charlie" with
    multiSeedList :=
      [{ selectedIndex := 2, words := ["delta", "golf", "alpha", "echo"],
         clickables := List.replicate 4 clickable },
       { selectedIndex := -1, words := ["hotel", "bravo", "india", "echo"],
         clickables := List.replicate 4 clickable },
       { selectedIndex := 3, words := ["juliet", "foxtrot", "charlie", "golf"],
         clickables := List.replicate 4 clickable }],
    listGroupSeed := List.replicate 3 { Axis := Axis.Horizontal } }

end seedbackup

/-!
# The editor widget (`ui/cryptomaterial/editor.go`)

The view state of `Editor` and the functions that change it. What the toolkit
reports during a frame (focus, queued clicks, hover) is an explicit `Context`.
The drawing of the widget tree is not modelled, nor is the change of the text
widget while it consumes its own input events.
-/

namespace cryptomaterial

/-- `color.NRGBA`. -/
structure NRGBA where
  R : Nat
  G : Nat
  B : Nat
  A : Nat
  deriving DecidableEq, Repr

/-- The colours of `values.Color` that the editor uses. -/
structure values.Color where
  Text : NRGBA
  GrayText3 : NRGBA
  Gray2 : NRGBA
  Primary : NRGBA
  Danger : NRGBA
  deriving DecidableEq, Repr

/-- The part of `Theme` that the editor uses. -/
structure Theme where
  Color : values.Color
  deriving DecidableEq, Repr

/-- The part of `Label` that the editor sets. -/
structure Label where
  Text : String
  Color : NRGBA
  deriving DecidableEq, Repr

/-- The part of `widget.Editor` that the editor reads and sets: the content,
the mask rune, the read-only flag and the selected text. -/
structure widget.Editor where
  text : String
  Mask : Int
  ReadOnly : Bool
  selectedText : String
  deriving DecidableEq, Repr

/-- `widget.Editor.Len()`: the length of the content in runes. -/
def widget.Editor.Len (editor : widget.Editor) : Int := (editor.text.length : Int)

/-- `widget.Editor.SelectedText()`. -/
def widget.Editor.SelectedText (editor : widget.Editor) : String := editor.selectedText

/-- Go's `len(s)` of a string: its length in bytes. -/
def lenString (s : String) : Int := (s.utf8ByteSize : Int)

/-- The part of `material.EditorStyle` that the editor uses: the text widget
and the hint. -/
structure material.EditorStyle where
  Editor : widget.Editor
  Hint : String
  deriving DecidableEq, Repr

/-- The state of `Editor`, which embeds `material.EditorStyle`. -/
structure Editor extends material.EditorStyle where
  t : Theme
  TitleLabel : Label
  errorLabel : Label
  LineColor : NRGBA
  IsRequired : Bool
  IsTitleLabel : Bool
  HasCustomButton : Bool
  ExtraText : String
  Bordered : Bool
  isPassword : Bool
  showEditorIcon : Bool
  alignEditorIconEnd : Bool
  isEditorButtonClickable : Bool
  requiredErrorText : String
  isDisableMenu : Bool
  isShowMenu : Bool
  focused : Bool
  isSpaceError : Bool
  isFirstFocus : Bool
  submitted : Bool
  changed : Bool
  selected : Bool
  showHintOnFocus : Bool
  deriving DecidableEq, Repr

/-- What the toolkit reports to the editor during one frame. -/
structure Context where
  /-- The value of `gtx.Source.Focused(e.Editor)`. -/
  Focused : Bool
  /-- The value of `e.showHidePassword.Button.Clicked(gtx)`. -/
  showHidePasswordClicked : Bool
  /-- The value of `e.editorIconButton.Button.Clicked(gtx)`. -/
  editorIconButtonClicked : Bool
  /-- The value of `e.copy.Clicked(gtx)`. -/
  copyClicked : Bool
  /-- The value of `e.paste.Clicked(gtx)`. -/
  pasteClicked : Bool
  /-- The value of `e.copy.Hovered()`. -/
  copyHovered : Bool
  /-- The value of `e.paste.Hovered()`. -/
  pasteHovered : Bool
  deriving DecidableEq, Repr

/-- `gtx.Disabled()`: a context without input source, which reports no focus
and delivers no clicks. -/
def Context.Disabled (gtx : Context) : Context :=
  { gtx with
    Focused := false, showHidePasswordClicked := false, editorIconButtonClicked := false,
    copyClicked := false, pasteClicked := false }

/-- The commands the editor executes through `gtx.Execute`, and the call of the
`EditorIconButtonEvent` callback. -/
inductive Command where
  | clipboardWrite (data : String)
  | clipboardRead
  | editorIconButtonEvent
  deriving DecidableEq, Repr

/-- The run-time panic of `handleEvents`: the call of a nil function value. -/
inductive Panic where
  | nilFunctionCall
  deriving DecidableEq, Repr

/-- `Theme.Editor(editor, hint)`. `t.Body2` and `t.Caption` are not part of the
modelled file: the labels they return are taken to carry the given text and the
theme's text colour. -/
def Theme.Editor (t : Theme) (editor : widget.Editor) (hint : String) :
    cryptomaterial.Editor :=
  { t := t, Editor := editor, Hint := hint,
    TitleLabel := { Text := "", Color := t.Color.Text },
    errorLabel := { Text := "", Color := t.Color.Danger },
    LineColor := { R := 0, G := 0, B := 0, A := 0 },
    IsRequired := false, IsTitleLabel := true, HasCustomButton := false, ExtraText := "",
    Bordered := true, isPassword := false, showEditorIcon := false,
    alignEditorIconEnd := true, isEditorButtonClickable := false,
    requiredErrorText := "Field is required",
    isDisableMenu := false, isShowMenu := false, focused := false, isSpaceError := false,
    isFirstFocus := false, submitted := false, changed := false, selected := false,
    showHintOnFocus := false }

/-- `Theme.EditorPassword(editor, hint)`. -/
def Theme.EditorPassword (t : Theme) (editor : widget.Editor) (hint : String) :
    cryptomaterial.Editor :=
  let editor := { editor with Mask := (Char.toNat '*' : Int) }
  let e := t.Editor editor hint
  { e with isPassword := true, showEditorIcon := false }

/-- `Editor.AlwaysShowHint()`. -/
def Editor.AlwaysShowHint (e : Editor) : Editor := { e with showHintOnFocus := true }

/-- `Editor.SetRequiredErrorText(txt)`. -/
def Editor.SetRequiredErrorText (e : Editor) (txt : String) : Editor :=
  { e with requiredErrorText := txt }

/-- `Editor.SetError(text)`. -/
def Editor.SetError (e : Editor) (text : String) : Editor :=
  { e with errorLabel := { e.errorLabel with Text := text } }

/-- `Editor.HasError()`. -/
def Editor.HasError (e : Editor) : Bool := e.errorLabel.Text != ""

/-- `Editor.ClearError()`. -/
def Editor.ClearError (e : Editor) : Editor :=
  { e with errorLabel := { e.errorLabel with Text := "" } }

/-- `Editor.IsDirty()`. -/
def Editor.IsDirty (e : Editor) : Bool := e.errorLabel.Text == ""

/-- `Editor.handleEvents(gtx)`. `EditorIconButtonEvent` is the callback field of
the editor: `none` for a nil function, otherwise its effect on the editor. The
result lists the commands executed, in order. -/
def Editor.handleEvents (EditorIconButtonEvent : Option (Editor → Editor))
    (e : Editor) (gtx : Context) : Except Panic (Editor × List Command) := do
  let e :=
    if gtx.showHidePasswordClicked then
      if e.Editor.Mask = (Char.toNat '*' : Int) then
        { e with Editor := { e.Editor with Mask := 0 } }
      else if e.Editor.Mask = 0 then
        { e with Editor := { e.Editor with Mask := (Char.toNat '*' : Int) } }
      else e
    else e
  let (e, cmds) ←
    if gtx.editorIconButtonClicked then
      match EditorIconButtonEvent with
      | some callback => Except.ok (callback e, [Command.editorIconButtonEvent])
      | none => Except.error Panic.nilFunctionCall
    else Except.ok (e, [])
  let (e, cmds) :=
    if gtx.copyClicked then
      ({ e with isShowMenu := false },
        cmds ++ [Command.clipboardWrite e.Editor.SelectedText])
    else (e, cmds)
  let (e, cmds) :=
    if gtx.pasteClicked then
      ({ e with isShowMenu := false }, cmds ++ [Command.clipboardRead])
    else (e, cmds)
  return (e, cmds)

/-- The children of the context menu. -/
inductive MenuChild where
  | copy
  | line
  | paste
  deriving DecidableEq, Repr

/-- `Editor.editorMenusLayout(gtx, editorHeight)`: the new state and, when the
menu is laid out, its children in order. -/
def Editor.editorMenusLayout (e : Editor) (gtx : Context) : Editor × Option (List MenuChild) :=
  let e := { e with
    isShowMenu := e.isShowMenu && (gtx.Focused || gtx.copyHovered || gtx.pasteHovered) }
  if e.isShowMenu then
    let flexChilds : List MenuChild := []
    let flexChilds :=
      if lenString e.Editor.SelectedText > 0 then
        (flexChilds ++ [MenuChild.copy]) ++ [MenuChild.line]
      else flexChilds
    let flexChilds := flexChilds ++ [MenuChild.paste]
    (e, some flexChilds)
  else (e, none)

/-- The first statement of `Editor.layout`: line and title colours are reset. -/
def Editor.layout.reset (e : Editor) : Editor :=
  { e with
    LineColor := e.t.Color.Gray2,
    TitleLabel := { e.TitleLabel with Color := e.t.Color.GrayText3 } }

/-- The `if e.Editor.Len() > 0 && len(e.Hint) > 0 ... else if e.Hint == ""`
statement of `Editor.layout`. -/
def Editor.layout.title (e : Editor) : Editor :=
  if e.Editor.Len > 0 ∧ lenString e.Hint > 0 then
    { e with TitleLabel := { e.TitleLabel with Text := e.Hint } }
  else if e.Hint = "" then
    { e with Hint := e.TitleLabel.Text, TitleLabel := { e.TitleLabel with Text := "" } }
  else e

/-- The `if focused` statement of `Editor.layout`. -/
def Editor.layout.focus (e : Editor) (focused : Bool) : Editor :=
  if focused then
    let e : cryptomaterial.Editor :=
      if !e.Editor.ReadOnly then { e with LineColor := e.t.Color.Primary } else e
    let e : cryptomaterial.Editor :=
      { e with TitleLabel := { e.TitleLabel with Color := e.t.Color.Primary } }
    let e : cryptomaterial.Editor :=
      { e with TitleLabel := { e.TitleLabel with Text := e.Hint } }
    if !e.showHintOnFocus then { e with Hint := "" } else e
  else e

/-- The `if e.IsRequired && !focused && e.Editor.Len() == 0` statement of
`Editor.layout`. -/
def Editor.layout.required (e : Editor) (focused : Bool) : Editor :=
  if e.IsRequired ∧ !focused ∧ e.Editor.Len = 0 then
    { e with
      errorLabel := { e.errorLabel with Text := e.requiredErrorText },
      LineColor := e.t.Color.Danger }
  else e

/-- The `if e.errorLabel.Text != ""` statement of `Editor.layout`. -/
def Editor.layout.error (e : Editor) : Editor :=
  if e.errorLabel.Text ≠ "" then
    { e with
      LineColor := e.t.Color.Danger,
      TitleLabel := { e.TitleLabel with Color := e.t.Color.Danger } }
  else e

/-- `Editor.layout(gtx)`: the new state and the context menu laid out, if any. -/
def Editor.layout (e : Editor) (gtx : Context) : Editor × Option (List MenuChild) :=
  let e := Editor.layout.reset e
  let e := Editor.layout.title e
  let focused := gtx.Focused
  let e := Editor.layout.focus e focused
  let e := Editor.layout.required e focused
  let e := Editor.layout.error e
  let gtx := if e.Editor.ReadOnly then gtx.Disabled else gtx
  if !e.isDisableMenu then e.editorMenusLayout gtx else (e, none)

/-! ## Sample editors -/

/-- A theme with four distinguishable colours. -/
def sampleTheme : Theme :=
  { Color :=
      { Text := { R := 9, G := 16, B := 30, A := 255 },
        GrayText3 := { R := 195, G := 204, B := 215, A := 255 },
        Gray2 := { R := 230, G := 234, B := 237, A := 255 },
        Primary := { R := 41, G := 112, B := 255, A := 255 },
        Danger := { R := 237, G := 109, B := 71, A := 255 } } }

/-- An empty text widget. -/
def emptyWidget : widget.Editor := { text := "", Mask := 0, ReadOnly := false, selectedText := "" }

/-- A frame without focus, clicks or hover. -/
def idleFrame : Context :=
  { Focused := false, showHidePasswordClicked := false, editorIconButtonClicked := false,
    copyClicked := false, pasteClicked := false, copyHovered := false, pasteHovered := false }

/-- A frame in which the editor has the focus. -/
def focusedFrame : Context := { idleFrame with Focused := true }

/-- A new editor with hint "Password" over an empty widget, marked required. -/
def requiredEditor : Editor :=
  { sampleTheme.Editor emptyWidget "Password" with IsRequired := true }

/-- The editor with hint "Password" after one focused layout pass, in which the
user then typed "abc": the label is held in `TitleLabel.Text`, the hint is
empty. -/
def typedEditor : Editor :=
  { ((sampleTheme.Editor emptyWidget "Password").layout focusedFrame).1 with
    Editor := { emptyWidget with text := "abc" } }

end cryptomaterial

namespace seedbackup

/-! ## Auxiliary facts about slices and the random source -/

theorem index_natCast {α : Type} (s : List α) (n : Nat) (h : n < s.length) :
    index s (n : Int) = .ok (s.get ⟨n, h⟩) := by
  simp [index, List.getElem?_eq_getElem h]

theorem index_eq_ok {α : Type} (s : List α) (i : Int) (a : α) :
    index s i = .ok a ↔ 0 ≤ i ∧ s[i.toNat]? = some a := by
  unfold index
  by_cases h : 0 ≤ i
  · cases hg : s[i.toNat]? <;> simp [h, hg]
  · simp [h]

theorem removeSeed_natCast (s : List String) (n : Nat) (h : n < s.length) :
    removeSeed s (n : Int) = .ok (s.take n ++ s.drop (n + 1)) := by
  have h1 : ((n : Int) ≤ (s.length : Int)) := by exact_mod_cast h.le
  have h2 : ((n : Int) + 1 ≤ (s.length : Int)) := by exact_mod_cast h
  have h3 : (0 : Int) ≤ (n : Int) + 1 := by omega
  have h4 : ((n : Int) + 1).toNat = n + 1 := by omega
  simp [removeSeed, sliceTo, sliceFrom, len, h1, h2, h3, h4, bind, Except.bind, pure, Except.pure]

theorem perm_cons_take_drop {α : Type} (s : List α) (n : Nat) (h : n < s.length) :
    (s.get ⟨n, h⟩ :: (s.take n ++ s.drop (n + 1))).Perm s := by
  have hs : s.take n ++ s.get ⟨n, h⟩ :: s.drop (n + 1) = s := by
    rw [List.get_eq_getElem, ← List.drop_eq_getElem_cons h]
    exact List.take_append_drop n s
  have hp : (s.take n ++ s.get ⟨n, h⟩ :: s.drop (n + 1)).Perm
      (s.get ⟨n, h⟩ :: (s.take n ++ s.drop (n + 1))) := List.perm_middle
  rw [hs] at hp
  exact hp.symm

theorem rand.Intn_pos (n : Nat) (rnd : Rand) (h : 0 < n) :
    rand.Intn (n : Int) rnd = .ok (((rnd 0 % n : Nat) : Int), fun k => rnd (k + 1)) := by
  have : ¬ ((n : Int) ≤ 0) := by omega
  simp [rand.Intn, this]

theorem swapWords_perm (words : List String) (i j : Nat)
    (hi : i < words.length) (hj : j < words.length) :
    ∃ words', swapWords (i : Int) (j : Int) words = .ok words' ∧ words'.Perm words := by
  refine ⟨(words.set i (words.get ⟨j, hj⟩)).set j (words.get ⟨i, hi⟩), ?_, ?_⟩
  · simp [swapWords, index_natCast words i hi, index_natCast words j hj, bind, Except.bind,
      pure, Except.pure]
  · rw [List.perm_iff_count]
    intro b
    have hj' : j < (words.set i (words.get ⟨j, hj⟩)).length := by simpa using hj
    rw [List.count_set _ _ _ _ hj', List.count_set _ _ _ _ hi]
    have hget : (words.set i (words.get ⟨j, hj⟩))[j] = words[j] := by
      rw [List.getElem_set]
      split
      · simp
      · rfl
    rw [hget]
    have h1 : (if (words[i] == b) = true then 1 else 0) ≤ words.count b := by
      split
      · rename_i h
        have : words[i] = b := by simpa using h
        rw [List.one_le_count_iff, ← this]
        exact List.getElem_mem hi
      · omega
    simp only [List.get_eq_getElem]
    omega

theorem rand.Shuffle.loop_perm :
    ∀ (i : Nat) (rnd : Rand) (words : List String), i < words.length →
      ∃ words' rnd', rand.Shuffle.loop swapWords i rnd words = .ok (words', rnd') ∧
        words'.Perm words
  | 0, rnd, words, _ => ⟨words, rnd, rfl, List.Perm.refl _⟩
  | i + 1, rnd, words, h => by
    have hpos : 0 < i + 1 + 1 := by omega
    have hj : rnd 0 % (i + 1 + 1) < words.length :=
      lt_of_lt_of_le (Nat.mod_lt _ hpos) (by omega)
    obtain ⟨w1, hw1, hp1⟩ := swapWords_perm words (i + 1) (rnd 0 % (i + 1 + 1)) h hj
    have hlen : i < w1.length := by rw [hp1.length_eq]; omega
    obtain ⟨w2, rnd2, hw2, hp2⟩ := rand.Shuffle.loop_perm i (fun k => rnd (k + 1)) w1 hlen
    refine ⟨w2, rnd2, ?_, hp2.trans hp1⟩
    have hcast : (((i + 1 : Nat) : Int) + 1) = ((i + 1 + 1 : Nat) : Int) := by push_cast; ring
    rw [rand.Shuffle.loop, hcast, rand.Intn_pos _ _ hpos]
    simp only [bind, Except.bind]
    rw [hw1]
    exact hw2

theorem getMultiSeed_loop_spec :
    ∀ (n : Nat) (shuffledSeed : shuffledSeedWords) (allSeeds : List String) (rnd : Rand),
      n ≤ allSeeds.length →
      ∃ decoys rest rnd',
        getMultiSeed.loop n shuffledSeed allSeeds rnd =
          .ok ({ shuffledSeed with
                  words := shuffledSeed.words ++ decoys,
                  clickables := shuffledSeed.clickables ++ List.replicate n clickable },
               rest, rnd') ∧
        decoys.length = n ∧ (decoys ++ rest).Perm allSeeds
  | 0, shuffledSeed, allSeeds, rnd, _ =>
    ⟨[], allSeeds, rnd, by simp [getMultiSeed.loop], rfl, List.Perm.refl _⟩
  | n + 1, shuffledSeed, allSeeds, rnd, h => by
    have hpos : 0 < allSeeds.length := by omega
    have hr : rnd 0 % allSeeds.length < allSeeds.length := Nat.mod_lt _ hpos
    have hlen : n ≤ (allSeeds.take (rnd 0 % allSeeds.length) ++
        allSeeds.drop (rnd 0 % allSeeds.length + 1)).length := by
      simp only [List.length_append, List.length_take, List.length_drop]
      omega
    obtain ⟨decoys, rest, rnd', hloop, hdl, hperm⟩ :=
      getMultiSeed_loop_spec n
        { shuffledSeed with
          words := shuffledSeed.words ++ [allSeeds.get ⟨_, hr⟩],
          clickables := shuffledSeed.clickables ++ [clickable] }
        _ (fun k => rnd (k + 1)) hlen
    refine ⟨allSeeds.get ⟨_, hr⟩ :: decoys, rest, rnd', ?_, by simp [hdl], ?_⟩
    · rw [getMultiSeed.loop, len, rand.Intn_pos _ _ hpos]
      simp only [bind, Except.bind]
      rw [index_natCast _ _ hr, removeSeed_natCast _ _ hr]
      simp only []
      rw [hloop]
      simp [List.replicate_succ]
    · exact ((List.Perm.cons _ hperm).trans (perm_cons_take_drop allSeeds _ hr))

theorem getMultiSeed_spec (allSeeds : List String) (r : Nat) (rnd : Rand)
    (hlen : 4 ≤ allSeeds.length) (hr : r < allSeeds.length) :
    ∃ words decoys rest rnd',
      getMultiSeed (r : Int) allSeeds rnd =
        .ok ({ selectedIndex := -1, words := words,
               clickables := List.replicate 4 clickable }, rnd') ∧
      words.Perm (allSeeds.get ⟨r, hr⟩ :: decoys) ∧ decoys.length = 3 ∧
      (allSeeds.get ⟨r, hr⟩ :: (decoys ++ rest)).Perm allSeeds := by
  have hpool : 3 ≤ (allSeeds.take r ++ allSeeds.drop (r + 1)).length := by
    simp only [List.length_append, List.length_take, List.length_drop]
    omega
  obtain ⟨decoys, rest, rnd1, hloop, hdl, hperm⟩ :=
    getMultiSeed_loop_spec 3
      { selectedIndex := -1, words := [] ++ [allSeeds.get ⟨r, hr⟩],
        clickables := [] ++ [clickable] }
      _ rnd hpool
  have hsh : (4 - 1 : Int).toNat < ([] ++ [allSeeds.get ⟨r, hr⟩] ++ decoys).length := by
    simp [hdl]
  obtain ⟨words, rnd2, hshuffle, hwp⟩ :=
    rand.Shuffle.loop_perm _ rnd1 ([] ++ [allSeeds.get ⟨r, hr⟩] ++ decoys) hsh
  refine ⟨words, decoys, rest, rnd2, ?_, by simpa using hwp, hdl, ?_⟩
  · rw [getMultiSeed]
    simp only [bind, Except.bind]
    rw [index_natCast _ _ hr, removeSeed_natCast _ _ hr]
    simp only []
    rw [hloop]
    simp only [rand.Shuffle]
    have hl : len ([] ++ [allSeeds.get ⟨r, hr⟩] ++ decoys) = 4 := by simp [len, hdl]
    rw [hl, hshuffle]
    rfl
  · exact (List.Perm.cons _ hperm).trans (perm_cons_take_drop allSeeds r hr)

theorem seedPosition_loop_spec (seed : String) :
    ∀ (allSeeds : List String) (i : Int), 0 ≤ i →
      (seed ∉ allSeeds ∧ seedPosition.loop seed allSeeds i = -1) ∨
      (∃ n : Nat, seedPosition.loop seed allSeeds i = i + n ∧ allSeeds[n]? = some seed ∧
        ∀ m, m < n → allSeeds[m]? ≠ some seed)
  | [], i, _ => Or.inl ⟨List.not_mem_nil _, rfl⟩
  | w :: rest, i, hi => by
    by_cases hw : w = seed
    · refine Or.inr ⟨0, ?_, ?_, ?_⟩
      · simp [seedPosition.loop, hw]
      · simp [hw]
      · intro m hm
        omega
    · rcases seedPosition_loop_spec seed rest (i + 1) (by omega) with ⟨hmem, hres⟩ | ⟨n, hres, hget, hmin⟩
      · refine Or.inl ⟨?_, ?_⟩
        · simp [hmem, Ne.symm hw]
        · simp [seedPosition.loop, hw, hres]
      · refine Or.inr ⟨n + 1, ?_, ?_, ?_⟩
        · simp only [seedPosition.loop, hw, if_false, hres]
          push_cast
          ring
        · simpa using hget
        · intro m hm
          cases m with
          | zero => simpa using hw
          | succ m => simpa using hmin m (by omega)

theorem seedPosition_of_mem (seed : String) (allSeeds : List String) (h : seed ∈ allSeeds) :
    ∃ n : Nat, seedPosition seed allSeeds = (n : Int) ∧ allSeeds[n]? = some seed ∧
      ∀ m, m < n → allSeeds[m]? ≠ some seed := by
  rcases seedPosition_loop_spec seed allSeeds 0 (le_refl _) with ⟨hmem, _⟩ | ⟨n, hres, hget, hmin⟩
  · exact absurd h hmem
  · exact ⟨n, by simpa [seedPosition] using hres, hget, hmin⟩

theorem OnNavigatedTo_loop_spec (PGPWordList : List String) (hlen : 4 ≤ PGPWordList.length) :
    ∀ (seedWords : List String) (listGroupSeed : List LayoutList)
      (multiSeedList : List shuffledSeedWords) (rnd : Rand),
      (∀ w ∈ seedWords, w ∈ PGPWordList) →
      ∃ entries rnd',
        OnNavigatedTo.loop PGPWordList PGPWordList seedWords listGroupSeed multiSeedList rnd =
          .ok (listGroupSeed ++ List.replicate seedWords.length { Axis := Axis.Horizontal },
               multiSeedList ++ entries, rnd') ∧
        List.Forall₂
          (fun w entry =>
            entry.selectedIndex = -1 ∧ entry.clickables.length = 4 ∧
            entry.words.length = 4 ∧ w ∈ entry.words)
          seedWords entries
  | [], listGroupSeed, multiSeedList, rnd, _ =>
    ⟨[], rnd, by simp [OnNavigatedTo.loop], List.Forall₂.nil⟩
  | word :: rest, listGroupSeed, multiSeedList, rnd, hmem => by
    obtain ⟨n, hpos, hget, _⟩ :=
      seedPosition_of_mem word PGPWordList (hmem word (List.mem_cons_self _ _))
    have hn : n < PGPWordList.length := (List.getElem?_eq_some_iff.mp hget).1
    have hword : PGPWordList.get ⟨n, hn⟩ = word := (List.getElem?_eq_some_iff.mp hget).2
    obtain ⟨words, decoys, _, rnd1, hentry, hwp, hdl, _⟩ :=
      getMultiSeed_spec PGPWordList n rnd hlen hn
    obtain ⟨entries, rnd2, hloop, hall⟩ :=
      OnNavigatedTo_loop_spec PGPWordList hlen rest
        (listGroupSeed ++ [{ Axis := Axis.Horizontal }])
        (multiSeedList ++
          [{ selectedIndex := -1, words := words, clickables := List.replicate 4 clickable }])
        rnd1 (fun w hw => hmem w (List.mem_cons_of_mem _ hw))
    refine ⟨{ selectedIndex := -1, words := words,
              clickables := List.replicate 4 clickable } :: entries, rnd2, ?_,
      List.Forall₂.cons ⟨rfl, by simp, ?_, ?_⟩ hall⟩
    · rw [OnNavigatedTo.loop, hpos]
      simp only [bind, Except.bind]
      rw [hentry]
      simp only []
      rw [hloop]
      simp [List.replicate_succ]
    · rw [hwp.length_eq]
      simp [hdl]
    · rw [hwp.mem_iff, ← hword]
      exact List.mem_cons_self _ _

theorem strings.splitChars_ne_nil (sep : Char) :
    ∀ cs : List Char, strings.splitChars sep cs ≠ []
  | [] => by simp [strings.splitChars]
  | c :: cs => by
    by_cases h : c = sep
    · simp [strings.splitChars, h]
    · have := strings.splitChars_ne_nil sep cs
      cases hs : strings.splitChars sep cs <;> simp [strings.splitChars, h, hs, strings.consHead]

theorem strings.joinChars_splitChars (sep : Char) :
    ∀ cs : List Char, strings.joinChars [sep] (strings.splitChars sep cs) = cs
  | [] => by simp [strings.splitChars, strings.joinChars]
  | c :: cs => by
    have ih := strings.joinChars_splitChars sep cs
    have hne := strings.splitChars_ne_nil sep cs
    cases hs : strings.splitChars sep cs with
    | nil => exact absurd hs hne
    | cons w ws =>
      rw [hs] at ih
      by_cases h : c = sep
      · simp [strings.splitChars, h, hs, strings.joinChars, ih]
      · cases ws with
        | nil =>
          simp only [strings.joinChars] at ih
          simp [strings.splitChars, h, hs, strings.consHead, strings.joinChars, ih]
        | cons w2 ws =>
          simp only [strings.joinChars] at ih
          simp [strings.splitChars, h, hs, strings.consHead, strings.joinChars, ih]

theorem strings.Join_Split (s : String) : strings.Join (strings.Split s ' ') " " = s := by
  have hsep : (" " : String).data = [' '] := rfl
  have hmap : ∀ l : List (List Char), List.map String.data (List.map String.mk l) = l := by
    intro l
    induction l with
    | nil => rfl
    | cons x xs ih => simp only [List.map_cons, ih]
  simp only [strings.Join, strings.Split, hsep, hmap, strings.joinChars_splitChars]

theorem strings.Split_length_pos (s : String) (sep : Char) :
    1 ≤ (strings.Split s sep).length := by
  have := strings.splitChars_ne_nil sep s.data
  cases hs : strings.splitChars sep s.data with
  | nil => exact absurd hs this
  | cons w ws => simp [strings.Split, hs]

theorem OnNavigatedTo_spec (PGPWordList : List String) (pg : VerifySeedPage) (rnd : Rand)
    (hlen : 4 ≤ PGPWordList.length)
    (hvocab : ∀ w ∈ strings.Split pg.seed ' ', w ∈ PGPWordList) :
    ∃ entries rnd',
      OnNavigatedTo PGPWordList pg rnd =
        .ok ({ pg with
                multiSeedList := entries,
                listGroupSeed :=
                  List.replicate (strings.Split pg.seed ' ').length { Axis := Axis.Horizontal } },
             rnd') ∧
      List.Forall₂
        (fun w entry =>
          entry.selectedIndex = -1 ∧ entry.clickables.length = 4 ∧
          entry.words.length = 4 ∧ w ∈ entry.words)
        (strings.Split pg.seed ' ') entries := by
  obtain ⟨entries, rnd', hloop, hall⟩ :=
    OnNavigatedTo_loop_spec PGPWordList hlen (strings.Split pg.seed ' ') [] [] rnd hvocab
  refine ⟨entries, rnd', ?_, hall⟩
  rw [OnNavigatedTo]
  simp only [bind, Except.bind]
  rw [hloop]
  simp [pure, Except.pure]

theorem selectedSeedPhrase.loop_unanswered :
    ∀ (entries : List shuffledSeedWords) (wordList : List String),
      (∀ entry ∈ entries, entry.selectedIndex = -1) →
      selectedSeedPhrase.loop entries wordList = .ok wordList
  | [], _, _ => rfl
  | entry :: rest, wordList, h => by
    have he : entry.selectedIndex = -1 := h entry (List.mem_cons_self _ _)
    rw [selectedSeedPhrase.loop]
    simp only [he, ne_eq, not_true_eq_false, if_false]
    exact selectedSeedPhrase.loop_unanswered rest wordList
      (fun e hm => h e (List.mem_cons_of_mem _ hm))

theorem getMultiSeed.loop_short :
    ∀ (n : Nat) (shuffledSeed : shuffledSeedWords) (allSeeds : List String) (rnd : Rand),
      allSeeds.length < n →
      getMultiSeed.loop n shuffledSeed allSeeds rnd = .error Fault.invalidArgumentToIntn
  | 0, _, _, _, h => absurd h (Nat.not_lt_zero _)
  | n + 1, shuffledSeed, allSeeds, rnd, h => by
    by_cases hpos : 0 < allSeeds.length
    · have hr : rnd 0 % allSeeds.length < allSeeds.length := Nat.mod_lt _ hpos
      have hlen : (allSeeds.take (rnd 0 % allSeeds.length) ++
          allSeeds.drop (rnd 0 % allSeeds.length + 1)).length < n := by
        simp only [List.length_append, List.length_take, List.length_drop]
        omega
      rw [getMultiSeed.loop, len, rand.Intn_pos _ _ hpos]
      simp only [bind, Except.bind]
      rw [index_natCast _ _ hr, removeSeed_natCast _ _ hr]
      simp only []
      exact getMultiSeed.loop_short n _ _ _ hlen
    · have h0 : allSeeds.length = 0 := by omega
      rw [getMultiSeed.loop, len, h0]
      rfl

theorem HandleUserInteractions.clicked_succ (j : Int) :
    ∀ (n : Nat) (entry : shuffledSeedWords),
      HandleUserInteractions.clicked j (n + 1) entry = { entry with selectedIndex := j }
  | 0, _ => rfl
  | n + 1, entry => by
    rw [HandleUserInteractions.clicked, HandleUserInteractions.clicked_succ j n]

theorem HandleUserInteractions.inner_no_click (clicks : Nat → Nat) :
    ∀ (cl : List Clickable) (j0 : Nat) (entry : shuffledSeedWords),
      (∀ j, j0 ≤ j → j < j0 + cl.length → clicks j = 0) →
      HandleUserInteractions.inner clicks cl j0 entry = entry
  | [], _, _, _ => rfl
  | _ :: rest, j0, entry, h => by
    have h0 : clicks j0 = 0 := h j0 (le_refl _) (by simp)
    rw [HandleUserInteractions.inner, h0, HandleUserInteractions.clicked]
    exact HandleUserInteractions.inner_no_click clicks rest (j0 + 1) entry
      (fun j h1 h2 => h j (by omega) (by simp only [List.length_cons]; omega))

theorem HandleUserInteractions.inner_one_click (clicks : Nat → Nat) (t : Nat)
    (ht : 0 < clicks t) :
    ∀ (cl : List Clickable) (j0 : Nat) (entry : shuffledSeedWords),
      j0 ≤ t → t < j0 + cl.length →
      (∀ j, j0 ≤ j → j < j0 + cl.length → j ≠ t → clicks j = 0) →
      HandleUserInteractions.inner clicks cl j0 entry = { entry with selectedIndex := (t : Int) }
  | [], j0, _, h1, h2, _ => by simp at h2; omega
  | _ :: rest, j0, entry, h1, h2, h => by
    rw [HandleUserInteractions.inner]
    by_cases hj : j0 = t
    · subst hj
      obtain ⟨n, hn⟩ := Nat.exists_eq_succ_of_ne_zero (Nat.pos_iff_ne_zero.mp ht)
      rw [hn, HandleUserInteractions.clicked_succ]
      exact HandleUserInteractions.inner_no_click clicks rest (j0 + 1) _
        (fun j h3 h4 => h j (by omega) (by simp only [List.length_cons]; omega) (by omega))
    · have h0 : clicks j0 = 0 := h j0 (le_refl _) (by simp) hj
      rw [h0, HandleUserInteractions.clicked]
      exact HandleUserInteractions.inner_one_click clicks t ht rest (j0 + 1) entry (by omega)
        (by simp only [List.length_cons] at h2; omega)
        (fun j h3 h4 => h j (by omega) (by simp only [List.length_cons]; omega))

theorem HandleUserInteractions.outer_getElem? (ev : Events) :
    ∀ (entries : List shuffledSeedWords) (i0 k : Nat),
      (HandleUserInteractions.outer ev entries i0)[k]? =
        (entries[k]?).map
          (fun entry => HandleUserInteractions.inner (ev.candidate (i0 + k)) entry.clickables 0 entry)
  | [], _, _ => by simp [HandleUserInteractions.outer]
  | entry :: rest, i0, 0 => by simp [HandleUserInteractions.outer]
  | entry :: rest, i0, k + 1 => by
    simp only [HandleUserInteractions.outer, List.getElem?_cons_succ]
    rw [HandleUserInteractions.outer_getElem? ev rest (i0 + 1) k]
    have : i0 + 1 + k = i0 + (k + 1) := by omega
    rw [this]

theorem HandleUserInteractions.outer_length (ev : Events) :
    ∀ (entries : List shuffledSeedWords) (i0 : Nat),
      (HandleUserInteractions.outer ev entries i0).length = entries.length
  | [], _ => rfl
  | _ :: rest, i0 => by
    simp [HandleUserInteractions.outer, HandleUserInteractions.outer_length ev rest (i0 + 1)]

theorem HandleUserInteractions.action_multiSeedList :
    ∀ (n : Nat) (pg : VerifySeedPage),
      (HandleUserInteractions.action n pg).multiSeedList = pg.multiSeedList
  | 0, _ => rfl
  | n + 1, pg => by
    rw [HandleUserInteractions.action, HandleUserInteractions.action_multiSeedList n]
    split <;> rfl

theorem HandleUserInteractions_multiSeedList (pg : VerifySeedPage) (ev : Events) :
    (HandleUserInteractions pg ev).multiSeedList =
      HandleUserInteractions.outer ev pg.multiSeedList 0 := by
  simp [HandleUserInteractions, HandleUserInteractions.action_multiSeedList]

theorem selectedSeedPhrase.loop_answered :
    ∀ (ws : List String) (entries : List shuffledSeedWords) (wordList : List String),
      List.Forall₂
        (fun w entry => entry.selectedIndex ≠ -1 ∧ index entry.words entry.selectedIndex = .ok w)
        ws entries →
      selectedSeedPhrase.loop entries wordList = .ok (wordList ++ ws)
  | _, _, wordList, List.Forall₂.nil => by simp [selectedSeedPhrase.loop]
  | w :: ws, _ :: rest, wordList, List.Forall₂.cons h hrest => by
    rw [selectedSeedPhrase.loop]
    simp only [h.1, ne_eq, not_false_eq_true, if_true, bind, Except.bind, h.2]
    rw [selectedSeedPhrase.loop_answered ws rest (wordList ++ [w]) hrest]
    simp

theorem HandleUserInteractions.click_getElem? (pg : VerifySeedPage) (i j a : Nat)
    (target : shuffledSeedWords) (hi : pg.multiSeedList[i]? = some target)
    (hj : j < target.clickables.length) (k : Nat) (entry : shuffledSeedWords)
    (hk : pg.multiSeedList[k]? = some entry) :
    (HandleUserInteractions pg (Events.click i j a)).multiSeedList[k]? =
      some (if k = i then { entry with selectedIndex := (j : Int) } else entry) := by
  rw [HandleUserInteractions_multiSeedList, HandleUserInteractions.outer_getElem?, hk]
  simp only [Option.map_some', Nat.zero_add, Option.some.injEq]
  by_cases hki : k = i
  · subst hki
    have he : entry = target := by
      rw [hk] at hi
      exact Option.some.inj hi
    subst he
    rw [if_pos rfl]
    exact HandleUserInteractions.inner_one_click _ j (by simp [Events.click]) _ 0 _
      (Nat.zero_le _) (by omega) (fun j' _ _ hne => by simp [Events.click, hne])
  · rw [if_neg hki]
    exact HandleUserInteractions.inner_no_click _ _ 0 _
      (fun j' _ _ => by simp [Events.click, hki])

theorem selectedSeedPhrase_loop_eq_answeredWords :
    ∀ (entries : List shuffledSeedWords) (wordList : List String),
      (∀ entry ∈ entries, selectionInRange entry) →
      selectedSeedPhrase.loop entries wordList = .ok (wordList ++ answeredWords entries)
  | [], wordList, _ => by simp [selectedSeedPhrase.loop, answeredWords]
  | entry :: rest, wordList, h => by
    have hrest : ∀ e ∈ rest, selectionInRange e := fun e hm => h e (List.mem_cons_of_mem _ hm)
    rcases h entry (List.mem_cons_self _ _) with hun | ⟨h0, h1⟩
    · rw [selectedSeedPhrase.loop]
      simp only [hun, ne_eq, not_true_eq_false, if_false]
      rw [selectedSeedPhrase_loop_eq_answeredWords rest wordList hrest]
      simp [answeredWords, hun]
    · have hne : entry.selectedIndex ≠ -1 := by omega
      have hlt : entry.selectedIndex.toNat < entry.words.length := by
        simp only [len] at h1
        omega
      have hidx : index entry.words entry.selectedIndex =
          .ok (entry.words.get ⟨entry.selectedIndex.toNat, hlt⟩) := by
        rw [index_eq_ok]
        exact ⟨h0, by simp [List.getElem?_eq_getElem hlt]⟩
      rw [selectedSeedPhrase.loop]
      simp only [hne, ne_eq, not_false_eq_true, if_true, bind, Except.bind, hidx]
      rw [selectedSeedPhrase_loop_eq_answeredWords rest _ hrest]
      simp [answeredWords, hne, List.getElem?_eq_getElem hlt]

theorem answeredWords_length :
    ∀ (entries : List shuffledSeedWords),
      (∀ entry ∈ entries, selectionInRange entry) →
      (answeredWords entries).length =
        (entries.filter (fun entry => decide (entry.selectedIndex ≠ -1))).length
  | [], _ => rfl
  | entry :: rest, h => by
    have hrest : ∀ e ∈ rest, selectionInRange e := fun e hm => h e (List.mem_cons_of_mem _ hm)
    have ih := answeredWords_length rest hrest
    simp only [answeredWords] at ih ⊢
    rcases h entry (List.mem_cons_self _ _) with hun | ⟨h0, h1⟩
    · simp only [List.get?_eq_getElem?, ne_eq, decide_not] at ih
      simp [hun, ih]
    · have hne : entry.selectedIndex ≠ -1 := by omega
      have hlt : entry.selectedIndex.toNat < entry.words.length := by
        simp only [len] at h1
        omega
      simp only [List.get?_eq_getElem?, ne_eq, decide_not] at ih
      simp [hne, List.getElem?_eq_getElem hlt, ih]

theorem HandleUserInteractions.clicked_cases (j : Int) (n : Nat) (entry : shuffledSeedWords) :
    HandleUserInteractions.clicked j n entry = entry ∨
    HandleUserInteractions.clicked j n entry = { entry with selectedIndex := j } := by
  cases n with
  | zero => exact Or.inl rfl
  | succ n => exact Or.inr (HandleUserInteractions.clicked_succ j n entry)

theorem HandleUserInteractions.inner_cases (clicks : Nat → Nat) :
    ∀ (cl : List Clickable) (j0 : Nat) (entry : shuffledSeedWords),
      HandleUserInteractions.inner clicks cl j0 entry = entry ∨
      ∃ j : Nat, j0 ≤ j ∧ j < j0 + cl.length ∧
        HandleUserInteractions.inner clicks cl j0 entry =
          { entry with selectedIndex := (j : Int) }
  | [], _, _ => Or.inl rfl
  | _ :: rest, j0, entry => by
    rw [HandleUserInteractions.inner]
    rcases HandleUserInteractions.clicked_cases (j0 : Int) (clicks j0) entry with h | h
    · rw [h]
      rcases HandleUserInteractions.inner_cases clicks rest (j0 + 1) entry with h2 | ⟨j, h3, h4, h5⟩
      · exact Or.inl h2
      · exact Or.inr ⟨j, by omega, by simp only [List.length_cons]; omega, h5⟩
    · rw [h]
      rcases HandleUserInteractions.inner_cases clicks rest (j0 + 1)
          { entry with selectedIndex := (j0 : Int) } with h2 | ⟨j, h3, h4, h5⟩
      · exact Or.inr ⟨j0, le_refl _, by simp, h2⟩
      · exact Or.inr ⟨j, by omega, by simp only [List.length_cons]; omega, h5⟩

theorem HandleUserInteractions.outer_forall (ev : Events) (P : shuffledSeedWords → Prop)
    (hP : ∀ (entry : shuffledSeedWords) (j : Nat), P entry → j < entry.clickables.length →
      P { entry with selectedIndex := (j : Int) }) :
    ∀ (entries : List shuffledSeedWords) (i0 : Nat),
      (∀ entry ∈ entries, P entry) →
      ∀ entry ∈ HandleUserInteractions.outer ev entries i0, P entry
  | [], _, _ => by simp [HandleUserInteractions.outer]
  | first :: rest, i0, h => by
    intro entry hmem
    rw [HandleUserInteractions.outer, List.mem_cons] at hmem
    rcases hmem with rfl | hmem
    · have hfirst := h first (List.mem_cons_self _ _)
      rcases HandleUserInteractions.inner_cases (ev.candidate i0) first.clickables 0 first
        with h1 | ⟨j, _, hj, h1⟩
      · rw [h1]
        exact hfirst
      · rw [h1]
        exact hP first j hfirst (by omega)
    · exact HandleUserInteractions.outer_forall ev P hP rest (i0 + 1)
        (fun e hm => h e (List.mem_cons_of_mem _ hm)) entry hmem

theorem allSeedsSelected_eq_true_iff (pg : VerifySeedPage) :
    allSeedsSelected pg = true ↔ ∀ entry ∈ pg.multiSeedList, entry.selectedIndex ≠ -1 := by
  have key : ∀ l : List shuffledSeedWords,
      allSeedsSelected.loop l = true ↔ ∀ entry ∈ l, entry.selectedIndex ≠ -1 := by
    intro l
    induction l with
    | nil => simp [allSeedsSelected.loop]
    | cons e rest ih =>
      by_cases h : e.selectedIndex = -1
      · simp [allSeedsSelected.loop, h]
      · simp [allSeedsSelected.loop, h, ih]
  exact key _

theorem HandleUserInteractions_keeps_all_selected (pg : VerifySeedPage) (ev : Events)
    (h : allSeedsSelected pg = true) : allSeedsSelected (HandleUserInteractions pg ev) = true := by
  rw [allSeedsSelected_eq_true_iff] at h ⊢
  rw [HandleUserInteractions_multiSeedList]
  exact HandleUserInteractions.outer_forall ev (fun entry => entry.selectedIndex ≠ -1)
    (fun entry j _ _ => by simp only [ne_eq]; omega) _ 0 h

theorem HandleUserInteractions_keeps_selections_in_range (pg : VerifySeedPage) (ev : Events)
    (h : ∀ entry ∈ pg.multiSeedList,
      entry.clickables.length = entry.words.length ∧ selectionInRange entry) :
    ∀ entry ∈ (HandleUserInteractions pg ev).multiSeedList,
      entry.clickables.length = entry.words.length ∧ selectionInRange entry := by
  rw [HandleUserInteractions_multiSeedList]
  refine HandleUserInteractions.outer_forall ev
    (fun entry => entry.clickables.length = entry.words.length ∧ selectionInRange entry)
    ?_ _ 0 h
  intro entry j hentry hj
  refine ⟨hentry.1, Or.inr ⟨Int.natCast_nonneg _, ?_⟩⟩
  have := hentry.1
  simp only [len]
  omega

theorem OnNavigatedTo_selections_in_range (PGPWordList : List String) (pg : VerifySeedPage)
    (rnd : Rand) (hlen : 4 ≤ PGPWordList.length)
    (hvocab : ∀ w ∈ strings.Split pg.seed ' ', w ∈ PGPWordList) :
    ∃ (pg' : VerifySeedPage) (rnd' : Rand),
      OnNavigatedTo PGPWordList pg rnd = .ok (pg', rnd') ∧
      ∀ entry ∈ pg'.multiSeedList,
        entry.clickables.length = entry.words.length ∧ selectionInRange entry := by
  obtain ⟨entries, rnd', hrun, hall⟩ := OnNavigatedTo_spec PGPWordList pg rnd hlen hvocab
  refine ⟨_, rnd', hrun, ?_⟩
  intro entry hmem
  have hmem' : entry ∈ entries := hmem
  obtain ⟨i, hi, rfl⟩ := List.getElem_of_mem hmem'
  have hi' : i < (strings.Split pg.seed ' ').length := hall.length_eq ▸ hi
  have hrel := (List.forall₂_iff_get.mp hall).2 i hi' hi
  rw [List.get_eq_getElem, List.get_eq_getElem] at hrel
  exact ⟨hrel.2.1.trans hrel.2.2.1.symm, Or.inl hrel.1⟩

theorem HandleUserInteractions.action_shownModals :
    ∀ (n : Nat) (pg : VerifySeedPage),
      (HandleUserInteractions.action n pg).shownModals =
        pg.shownModals ++
          (if allSeedsSelected pg = true
            then List.replicate n (Modal.createPassword NewCreatePasswordModal) else [])
  | 0, pg => by simp [HandleUserInteractions.action]
  | n + 1, pg => by
    rw [HandleUserInteractions.action, HandleUserInteractions.action_shownModals n]
    by_cases h : allSeedsSelected pg = true
    · have h2 : allSeedsSelected (verifySeed pg) = true := h
      simp only [h, if_true, h2]
      simp [verifySeed, List.replicate_succ]
    · simp [h]

theorem getMultiSeed_natCast_short (allSeeds : List String) (n : Nat) (rnd : Rand)
    (hn : n < allSeeds.length) (hl : allSeeds.length < 4) :
    getMultiSeed (n : Int) allSeeds rnd = .error Fault.invalidArgumentToIntn := by
  have hpool : (allSeeds.take n ++ allSeeds.drop (n + 1)).length < 3 := by
    simp only [List.length_append, List.length_take, List.length_drop]
    omega
  rw [getMultiSeed]
  simp only [bind, Except.bind]
  rw [index_natCast _ _ hn, removeSeed_natCast _ _ hn]
  simp only []
  rw [getMultiSeed.loop_short 3 _ _ rnd hpool]

theorem getMultiSeed_out_of_range (allSeeds : List String) (r : Int) (rnd : Rand)
    (hr : r < 0 ∨ len allSeeds ≤ r) :
    getMultiSeed r allSeeds rnd = .error Fault.indexOutOfRange := by
  have hidx : index allSeeds r = .error Fault.indexOutOfRange := by
    unfold index
    by_cases h0 : 0 ≤ r
    · have hge : allSeeds.length ≤ r.toNat := by
        simp only [len] at hr
        omega
      simp [h0, List.getElem?_eq_none hge]
    · simp [h0]
  rw [getMultiSeed]
  simp only [bind, Except.bind, hidx]

theorem getMultiSeed_ok_iff (allSeeds : List String) (r : Int) (rnd : Rand) :
    (∃ res, getMultiSeed r allSeeds rnd = .ok res) ↔
      (0 ≤ r ∧ r < len allSeeds ∧ 4 ≤ len allSeeds) := by
  constructor
  · rintro ⟨res, hres⟩
    by_cases hr : r < 0 ∨ len allSeeds ≤ r
    · rw [getMultiSeed_out_of_range allSeeds r rnd hr] at hres
      cases hres
    · have h0 : 0 ≤ r := by omega
      have h1 : r < len allSeeds := by omega
      refine ⟨h0, h1, ?_⟩
      by_contra hl
      obtain ⟨n, rfl⟩ := Int.eq_ofNat_of_zero_le h0
      simp only [len] at h1 hl
      rw [getMultiSeed_natCast_short allSeeds n rnd (by omega) (by omega)] at hres
      cases hres
  · rintro ⟨h0, h1, hl⟩
    obtain ⟨n, rfl⟩ := Int.eq_ofNat_of_zero_le h0
    simp only [len] at h1 hl
    obtain ⟨words, _, _, rnd', hget, _⟩ :=
      getMultiSeed_spec allSeeds n rnd (by omega) (by omega)
    exact ⟨_, hget⟩

theorem OnNavigatedTo_loop_faults (PGPWordList : List String) :
    ∀ (seedWords : List String) (listGroupSeed : List LayoutList)
      (multiSeedList : List shuffledSeedWords) (rnd : Rand),
      seedWords ≠ [] →
      ¬ (4 ≤ PGPWordList.length ∧ ∀ w ∈ seedWords, w ∈ PGPWordList) →
      OnNavigatedTo.loop PGPWordList PGPWordList seedWords listGroupSeed multiSeedList rnd =
          .error Fault.indexOutOfRange ∨
      OnNavigatedTo.loop PGPWordList PGPWordList seedWords listGroupSeed multiSeedList rnd =
          .error Fault.invalidArgumentToIntn
  | [], _, _, _, hne, _ => absurd rfl hne
  | word :: rest, listGroupSeed, multiSeedList, rnd, _, hbad => by
    rw [OnNavigatedTo.loop]
    by_cases hw : word ∈ PGPWordList
    · obtain ⟨n, hpos, hget, _⟩ := seedPosition_of_mem word PGPWordList hw
      have hn : n < PGPWordList.length := (List.getElem?_eq_some_iff.mp hget).1
      by_cases hl : 4 ≤ PGPWordList.length
      · obtain ⟨words, _, _, rnd1, hentry, _⟩ := getMultiSeed_spec PGPWordList n rnd hl hn
        have hrest : ¬ (4 ≤ PGPWordList.length ∧ ∀ w ∈ rest, w ∈ PGPWordList) := by
          rintro ⟨_, hall⟩
          apply hbad
          refine ⟨hl, ?_⟩
          intro w hm
          rcases List.mem_cons.mp hm with rfl | hm
          · exact hw
          · exact hall w hm
        have hne : rest ≠ [] := by
          rintro rfl
          exact hrest ⟨hl, by simp⟩
        simp only [hpos, bind, Except.bind, hentry]
        exact OnNavigatedTo_loop_faults PGPWordList rest _ _ rnd1 hne hrest
      · right
        simp only [hpos, bind, Except.bind]
        rw [getMultiSeed_natCast_short PGPWordList n rnd hn (by omega)]
    · left
      have hpos : seedPosition word PGPWordList = -1 := by
        rcases seedPosition_loop_spec word PGPWordList 0 (le_refl _) with ⟨_, hres⟩ | ⟨n, _, hget, _⟩
        · exact hres
        · exact absurd (List.getElem?_mem hget) hw
      simp only [hpos, bind, Except.bind]
      rw [getMultiSeed_out_of_range PGPWordList (-1) rnd (Or.inl (by omega))]

theorem strings.Split_ne_nil (s : String) (sep : Char) : strings.Split s sep ≠ [] := by
  intro h
  have := strings.Split_length_pos s sep
  rw [h] at this
  simp at this

/-! ## Claims -/

/-- C1: for a duplicate-free vocabulary of at least 4 words, a valid index `r`
and any stream of random draws, `getMultiSeed` returns an entry with exactly
4 pairwise distinct candidate words, all taken from the vocabulary, exactly
one of which is `vocabulary[r]`; the three others differ from it. -/
theorem getMultiSeed_four_distinct_candidates (vocabulary : List String) (r : Int) (rnd : Rand)
    (hnodup : vocabulary.Nodup) (hlen : 4 ≤ len vocabulary)
    (hr : 0 ≤ r ∧ r < len vocabulary) :
    ∃ real entry rnd',
      index vocabulary r = .ok real ∧
      getMultiSeed r vocabulary rnd = .ok (entry, rnd') ∧
      entry.words.length = 4 ∧ entry.words.Nodup ∧
      (∀ w ∈ entry.words, w ∈ vocabulary) ∧
      entry.words.count real = 1 ∧
      (entry.words.filter (fun w => decide (w ≠ real))).length = 3 := by
  obtain ⟨h0, h1⟩ := hr
  obtain ⟨n, rfl⟩ := Int.eq_ofNat_of_zero_le h0
  have hn : n < vocabulary.length := by simpa [len] using h1
  have hl : 4 ≤ vocabulary.length := by simpa [len] using hlen
  obtain ⟨words, decoys, rest, rnd', hget, hwp, hdl, hvp⟩ :=
    getMultiSeed_spec vocabulary n rnd hl hn
  have hnd : (vocabulary.get ⟨n, hn⟩ :: (decoys ++ rest)).Nodup := hvp.nodup_iff.mpr hnodup
  have hnd' : (vocabulary.get ⟨n, hn⟩ :: decoys).Nodup := by
    rw [List.nodup_cons] at hnd ⊢
    refine ⟨fun hm => hnd.1 (List.mem_append_left _ hm), ?_⟩
    exact (List.nodup_append.mp hnd.2).1
  have hwnd : words.Nodup := hwp.nodup_iff.mpr hnd'
  have hmem : vocabulary.get ⟨n, hn⟩ ∈ words := hwp.mem_iff.mpr (List.mem_cons_self _ _)
  have hcount : words.count (vocabulary.get ⟨n, hn⟩) = 1 :=
    List.count_eq_one_of_mem hwnd hmem
  have hwl : words.length = 4 := by rw [hwp.length_eq]; simp [hdl]
  refine ⟨vocabulary.get ⟨n, hn⟩, _, rnd', index_natCast _ _ hn, hget, hwl, hwnd, ?_, hcount, ?_⟩
  · intro w hw
    have hw' : w ∈ vocabulary.get ⟨n, hn⟩ :: decoys := hwp.mem_iff.mp hw
    apply hvp.mem_iff.mp
    rcases List.mem_cons.mp hw' with h | h
    · exact h ▸ List.mem_cons_self _ _
    · exact List.mem_cons_of_mem _ (List.mem_append_left _ h)
  · have hfp := (hwp.filter (fun w => decide (w ≠ vocabulary.get ⟨n, hn⟩))).length_eq
    have hdec : decoys.filter (fun w => decide (w ≠ vocabulary.get ⟨n, hn⟩)) = decoys := by
      rw [List.filter_eq_self]
      intro w hw
      have hne : w ≠ vocabulary.get ⟨n, hn⟩ := by
        rintro rfl
        exact (List.nodup_cons.mp hnd').1 hw
      simpa using hne
    rw [hfp, List.filter_cons_of_neg (by simp), hdec, hdl]

/-- Witness of C1: a five-word vocabulary, real word at index 2. -/
theorem getMultiSeed_four_distinct_candidates_witness :
    ∃ real entry rnd',
      index ["able", "baker", "charlie", "dog", "easy"] 2 = .ok real ∧
      getMultiSeed 2 ["able", "baker", "charlie", "dog", "easy"] (fun k => k) =
        .ok (entry, rnd') ∧
      entry.words.length = 4 ∧ entry.words.Nodup ∧
      (∀ w ∈ entry.words, w ∈ ["able", "baker", "charlie", "dog", "easy"]) ∧
      entry.words.count real = 1 ∧
      (entry.words.filter (fun w => decide (w ≠ real))).length = 3 :=
  getMultiSeed_four_distinct_candidates ["able", "baker", "charlie", "dog", "easy"] 2
    (fun k => k) (by decide) (by decide) (by decide)

/-- C6: `seedPosition(w, v)` is `-1` exactly when `w` does not occur in `v`;
when `w` occurs it is the smallest index `i` with `v[i] = w`, so that
`0 ≤ i < len(v)`. -/
theorem seedPosition_first_index_or_minus_one (w : String) (v : List String) :
    (seedPosition w v = -1 ↔ w ∉ v) ∧
    (w ∈ v → ∃ i : Nat, seedPosition w v = (i : Int) ∧ i < v.length ∧
      v[i]? = some w ∧ ∀ k, k < i → v[k]? ≠ some w) := by
  constructor
  · constructor
    · intro h hmem
      obtain ⟨n, hn, _, _⟩ := seedPosition_of_mem w v hmem
      rw [hn] at h
      omega
    · intro hmem
      rcases seedPosition_loop_spec w v 0 (le_refl _) with ⟨_, hres⟩ | ⟨n, _, hget, _⟩
      · exact hres
      · exact absurd (List.getElem?_mem hget) hmem
  · intro hmem
    obtain ⟨n, hn, hget, hmin⟩ := seedPosition_of_mem w v hmem
    exact ⟨n, hn, (List.getElem?_eq_some_iff.mp hget).1, hget, hmin⟩

/-- C4: `allSeedsSelected` is true exactly when every entry of `multiSeedList`
has `selectedIndex ≠ -1`; one unanswered entry makes it false, and it is true
for an empty entry list. -/
theorem allSeedsSelected_iff_every_entry_answered (pg : VerifySeedPage) :
    (allSeedsSelected pg = true ↔ ∀ entry ∈ pg.multiSeedList, entry.selectedIndex ≠ -1) ∧
    ((∃ entry ∈ pg.multiSeedList, entry.selectedIndex = -1) → allSeedsSelected pg = false) ∧
    (pg.multiSeedList = [] → allSeedsSelected pg = true) := by
  have key : ∀ l : List shuffledSeedWords,
      allSeedsSelected.loop l = true ↔ ∀ entry ∈ l, entry.selectedIndex ≠ -1 := by
    intro l
    induction l with
    | nil => simp [allSeedsSelected.loop]
    | cons e rest ih =>
      by_cases h : e.selectedIndex = -1
      · simp [allSeedsSelected.loop, h]
      · simp [allSeedsSelected.loop, h, ih]
  refine ⟨key _, ?_, ?_⟩
  · rintro ⟨entry, hmem, hsel⟩
    cases hres : allSeedsSelected pg
    · rfl
    · exact absurd hsel ((key _).mp hres entry hmem)
  · intro h
    simp [allSeedsSelected, h, allSeedsSelected.loop]


/-- C2: when the space-separated words of the seed phrase are `N` vocabulary
words (`N ≥ 1`), `OnNavigatedTo` leaves `multiSeedList` with exactly `N` entries
and `listGroupSeed` with exactly `N` row lists, and the words of entry `i`
contain the `i`-th word of the seed phrase. -/
theorem OnNavigatedTo_one_entry_per_seed_word (PGPWordList : List String)
    (pg : VerifySeedPage) (rnd : Rand) (seedWords : List String)
    (hlen : 4 ≤ len PGPWordList)
    (hseed : strings.Split pg.seed ' ' = seedWords)
    (hvocab : ∀ w ∈ seedWords, w ∈ PGPWordList) :
    ∃ (pg' : VerifySeedPage) (rnd' : Rand),
      OnNavigatedTo PGPWordList pg rnd = .ok (pg', rnd') ∧
      1 ≤ seedWords.length ∧
      pg'.multiSeedList.length = seedWords.length ∧
      pg'.listGroupSeed.length = seedWords.length ∧
      ∀ (i : Nat) (w : String), seedWords[i]? = some w →
        ∃ entry : shuffledSeedWords, pg'.multiSeedList[i]? = some entry ∧ w ∈ entry.words := by
  subst hseed
  obtain ⟨entries, rnd', hrun, hall⟩ :=
    OnNavigatedTo_spec PGPWordList pg rnd (by simpa [len] using hlen) hvocab
  refine ⟨_, rnd', hrun, strings.Split_length_pos _ _, hall.length_eq.symm, by simp, ?_⟩
  intro i w hw
  have hi : i < (strings.Split pg.seed ' ').length := (List.getElem?_eq_some_iff.mp hw).1
  have hi' : i < entries.length := hall.length_eq ▸ hi
  refine ⟨entries.get ⟨i, hi'⟩, by simp [List.getElem?_eq_getElem hi'], ?_⟩
  have hrel := (List.forall₂_iff_get.mp hall).2 i hi hi'
  have hw' : (strings.Split pg.seed ' ').get ⟨i, hi⟩ = w := (List.getElem?_eq_some_iff.mp hw).2
  rw [← hw']
  exact hrel.2.2.2

/-- C9: whatever the prior page state, when the space-separated words of the
seed are vocabulary words, after `OnNavigatedTo` every quiz entry has
`selectedIndex = -1`, there is at least one entry, `allSeedsSelected` returns
false and `selectedSeedPhrase` returns the empty string. -/
theorem OnNavigatedTo_quiz_is_fresh (PGPWordList : List String)
    (pg : VerifySeedPage) (rnd : Rand)
    (hlen : 4 ≤ len PGPWordList)
    (hvocab : ∀ w ∈ strings.Split pg.seed ' ', w ∈ PGPWordList) :
    ∃ (pg' : VerifySeedPage) (rnd' : Rand),
      OnNavigatedTo PGPWordList pg rnd = .ok (pg', rnd') ∧
      pg'.multiSeedList ≠ [] ∧
      (∀ entry ∈ pg'.multiSeedList, entry.selectedIndex = -1) ∧
      allSeedsSelected pg' = false ∧
      selectedSeedPhrase pg' = .ok "" := by
  obtain ⟨entries, rnd', hrun, hall⟩ :=
    OnNavigatedTo_spec PGPWordList pg rnd (by simpa [len] using hlen) hvocab
  have hfresh : ∀ entry ∈ entries, entry.selectedIndex = -1 := by
    intro entry hmem
    obtain ⟨i, hi, rfl⟩ := List.getElem_of_mem hmem
    have hi' : i < (strings.Split pg.seed ' ').length := hall.length_eq ▸ hi
    exact ((List.forall₂_iff_get.mp hall).2 i hi' hi).1
  have hpos : 1 ≤ entries.length := hall.length_eq ▸ strings.Split_length_pos pg.seed ' '
  refine ⟨_, rnd', hrun, ?_, hfresh, ?_, ?_⟩
  · intro h
    simp only at h
    rw [h] at hpos
    simp at hpos
  · cases hl : entries with
    | nil => rw [hl] at hpos; simp at hpos
    | cons e rest =>
      have he : e.selectedIndex = -1 := hfresh e (by simp [hl])
      simp [allSeedsSelected, allSeedsSelected.loop, he]
  · simp only [selectedSeedPhrase, bind, Except.bind]
    rw [selectedSeedPhrase.loop_unanswered entries [] hfresh]
    rfl

/-- C3: round trip. When the space-separated words of the seed are vocabulary
words, `OnNavigatedTo` builds a quiz in which every entry `i` has a candidate
equal to the `i`-th seed word, and once such a candidate is selected in every
entry, `selectedSeedPhrase` returns exactly the original seed string. -/
theorem selectedSeedPhrase_round_trip (PGPWordList : List String)
    (pg : VerifySeedPage) (rnd : Rand)
    (hlen : 4 ≤ len PGPWordList)
    (hvocab : ∀ w ∈ strings.Split pg.seed ' ', w ∈ PGPWordList) :
    ∃ (pg' : VerifySeedPage) (rnd' : Rand),
      OnNavigatedTo PGPWordList pg rnd = .ok (pg', rnd') ∧
      (∀ (i : Nat) (w : String), (strings.Split pg.seed ' ')[i]? = some w →
        ∃ (entry : shuffledSeedWords) (j : Nat),
          pg'.multiSeedList[i]? = some entry ∧ entry.words[j]? = some w) ∧
      ∀ (sel : Nat → Nat) (a : Nat),
        (∀ (i : Nat) (entry : shuffledSeedWords), pg'.multiSeedList[i]? = some entry →
          entry.words[sel i]? = (strings.Split pg.seed ' ')[i]?) →
        selectedSeedPhrase (HandleUserInteractions pg' (Events.select sel a)) = .ok pg.seed := by
  obtain ⟨entries, rnd', hrun, hall⟩ :=
    OnNavigatedTo_spec PGPWordList pg rnd (by simpa [len] using hlen) hvocab
  refine ⟨_, rnd', hrun, ?_, ?_⟩
  · intro i w hw
    have hi : i < (strings.Split pg.seed ' ').length := (List.getElem?_eq_some_iff.mp hw).1
    have hi' : i < entries.length := hall.length_eq ▸ hi
    have hrel := (List.forall₂_iff_get.mp hall).2 i hi hi'
    have hw' : (strings.Split pg.seed ' ').get ⟨i, hi⟩ = w :=
      (List.getElem?_eq_some_iff.mp hw).2
    rw [hw'] at hrel
    obtain ⟨j, hj⟩ := List.getElem?_of_mem hrel.2.2.2
    exact ⟨entries.get ⟨i, hi'⟩, j, by simp [List.getElem?_eq_getElem hi'], hj⟩
  · intro sel a hsel
    simp only at hsel
    have hF : List.Forall₂
        (fun w entry => entry.selectedIndex ≠ -1 ∧
          index entry.words entry.selectedIndex = .ok w)
        (strings.Split pg.seed ' ')
        (HandleUserInteractions.outer (Events.select sel a) entries 0) := by
      rw [List.forall₂_iff_get]
      refine ⟨by rw [HandleUserInteractions.outer_length]; exact hall.length_eq, ?_⟩
      intro i h1 h2
      have hi : i < entries.length := by
        rw [HandleUserInteractions.outer_length] at h2
        exact h2
      have hrel := (List.forall₂_iff_get.mp hall).2 i h1 hi
      have hs := hsel i (entries.get ⟨i, hi⟩) (by simp [List.getElem?_eq_getElem hi])
      rw [List.getElem?_eq_getElem h1] at hs
      have hlt : sel i < (entries.get ⟨i, hi⟩).words.length :=
        (List.getElem?_eq_some_iff.mp hs).1
      have hcl : sel i < (entries.get ⟨i, hi⟩).clickables.length := by
        have h4 := hrel.2.1
        have h4' := hrel.2.2.1
        omega
      have hout : (HandleUserInteractions.outer (Events.select sel a) entries 0).get ⟨i, h2⟩ =
          { entries.get ⟨i, hi⟩ with selectedIndex := (sel i : Int) } := by
        have hget := HandleUserInteractions.outer_getElem? (Events.select sel a) entries 0 i
        rw [List.getElem?_eq_getElem h2, List.getElem?_eq_getElem hi] at hget
        simp only [Option.map_some', Option.some.injEq, Nat.zero_add] at hget
        rw [List.get_eq_getElem, hget]
        exact HandleUserInteractions.inner_one_click _ (sel i) (by simp [Events.select]) _ 0 _
          (Nat.zero_le _) (by simpa using hcl)
          (fun j _ _ hne => by simp [Events.select, hne])
      rw [hout]
      have hne : ((sel i : Nat) : Int) ≠ -1 := by omega
      refine ⟨hne, ?_⟩
      rw [index_eq_ok]
      exact ⟨Int.natCast_nonneg _, by simpa using hs⟩
    simp only [selectedSeedPhrase, bind, Except.bind]
    rw [HandleUserInteractions_multiSeedList]
    simp only []
    rw [selectedSeedPhrase.loop_answered _ _ [] hF]
    simp [pure, Except.pure, strings.Join_Split]

/-- C5: last write wins, with frame. A frame with one click on candidate `j`
of entry `i` sets that entry's `selectedIndex` to `j` whatever it was, leaves
its words and click targets, every other entry and the number of entries
unchanged; processing the same click a second time changes nothing. -/
theorem HandleUserInteractions_last_write_wins (pg : VerifySeedPage) (i j a : Nat)
    (target : shuffledSeedWords) (hi : pg.multiSeedList[i]? = some target)
    (hj : j < target.clickables.length) :
    (HandleUserInteractions pg (Events.click i j a)).multiSeedList[i]? =
        some { selectedIndex := (j : Int), words := target.words,
               clickables := target.clickables } ∧
    (∀ (k : Nat), k ≠ i →
      (HandleUserInteractions pg (Events.click i j a)).multiSeedList[k]? =
        pg.multiSeedList[k]?) ∧
    (HandleUserInteractions pg (Events.click i j a)).multiSeedList.length =
        pg.multiSeedList.length ∧
    HandleUserInteractions (HandleUserInteractions pg (Events.click i j 0)) (Events.click i j 0) =
      HandleUserInteractions pg (Events.click i j 0) := by
  have hlenEq : ∀ (q : VerifySeedPage) (n : Nat),
      (HandleUserInteractions q (Events.click i j n)).multiSeedList.length =
        q.multiSeedList.length := by
    intro q n
    rw [HandleUserInteractions_multiSeedList, HandleUserInteractions.outer_length]
  refine ⟨?_, ?_, hlenEq pg a, ?_⟩
  · rw [HandleUserInteractions.click_getElem? pg i j a target hi hj i target hi, if_pos rfl]
  · intro k hk
    cases hget : pg.multiSeedList[k]? with
    | none =>
      rw [List.getElem?_eq_none_iff] at hget ⊢
      rw [hlenEq]
      exact hget
    | some entry =>
      rw [HandleUserInteractions.click_getElem? pg i j a target hi hj k entry hget, if_neg hk]
  · have hi1 : (HandleUserInteractions pg (Events.click i j 0)).multiSeedList[i]? =
        some { target with selectedIndex := (j : Int) } := by
      rw [HandleUserInteractions.click_getElem? pg i j 0 target hi hj i target hi, if_pos rfl]
    have hlist : (HandleUserInteractions (HandleUserInteractions pg (Events.click i j 0))
        (Events.click i j 0)).multiSeedList =
        (HandleUserInteractions pg (Events.click i j 0)).multiSeedList := by
      apply List.ext_getElem?
      intro k
      cases hget : (HandleUserInteractions pg (Events.click i j 0)).multiSeedList[k]? with
      | none =>
        rw [List.getElem?_eq_none_iff] at hget ⊢
        rw [hlenEq]
        exact hget
      | some entry =>
        rw [HandleUserInteractions.click_getElem? _ i j 0 _ hi1 hj k entry hget]
        by_cases hk : k = i
        · subst hk
          rw [hi1] at hget
          have he := Option.some.inj hget
          subst he
          simp
        · rw [if_neg hk]
    have hshape : ∀ q : VerifySeedPage, HandleUserInteractions q (Events.click i j 0) =
        { q with multiSeedList :=
            (HandleUserInteractions q (Events.click i j 0)).multiSeedList } := by
      intro q
      rfl
    rw [hshape (HandleUserInteractions pg (Events.click i j 0)), hlist]

/-- Witness of C2: the seed "alpha bravo charlie" over the sample vocabulary. -/
theorem OnNavigatedTo_one_entry_per_seed_word_witness :
    ∃ (pg' : VerifySeedPage) (rnd' : Rand),
      OnNavigatedTo sampleVocabulary (NewVerifySeedPage "alpha bravo charlie") sampleRand =
        .ok (pg', rnd') ∧
      1 ≤ ["alpha", "bravo", "charlie"].length ∧
      pg'.multiSeedList.length = ["alpha", "bravo", "charlie"].length ∧
      pg'.listGroupSeed.length = ["alpha", "bravo", "charlie"].length ∧
      ∀ (i : Nat) (w : String), ["alpha", "bravo", "charlie"][i]? = some w →
        ∃ entry : shuffledSeedWords, pg'.multiSeedList[i]? = some entry ∧ w ∈ entry.words :=
  OnNavigatedTo_one_entry_per_seed_word sampleVocabulary
    (NewVerifySeedPage "alpha bravo charlie") sampleRand ["alpha", "bravo", "charlie"]
    (by decide) (by decide) (by decide)

/-- Witness of C3: the seed "alpha bravo charlie" yields "alpha bravo charlie". -/
theorem selectedSeedPhrase_round_trip_witness :
    ∃ (pg' : VerifySeedPage) (rnd' : Rand),
      OnNavigatedTo sampleVocabulary (NewVerifySeedPage "alpha bravo charlie") sampleRand =
        .ok (pg', rnd') ∧
      (∀ (i : Nat) (w : String),
        (strings.Split "alpha bravo charlie" ' ')[i]? = some w →
        ∃ (entry : shuffledSeedWords) (j : Nat),
          pg'.multiSeedList[i]? = some entry ∧ entry.words[j]? = some w) ∧
      ∀ (sel : Nat → Nat) (a : Nat),
        (∀ (i : Nat) (entry : shuffledSeedWords), pg'.multiSeedList[i]? = some entry →
          entry.words[sel i]? = (strings.Split "alpha bravo charlie" ' ')[i]?) →
        selectedSeedPhrase (HandleUserInteractions pg' (Events.select sel a)) =
          .ok "alpha bravo charlie" :=
  selectedSeedPhrase_round_trip sampleVocabulary (NewVerifySeedPage "alpha bravo charlie")
    sampleRand (by decide) (by decide)

/-- Witness of C5: in the answered sample page, entry 1 is switched from
candidate 0 to candidate 3. -/
theorem HandleUserInteractions_last_write_wins_witness :
    (HandleUserInteractions answeredPage (Events.click 1 3 0)).multiSeedList[1]? =
        some { selectedIndex := 3, words := ["hotel", "bravo", "india", "echo"],
               clickables := List.replicate 4 clickable } ∧
    (∀ (k : Nat), k ≠ 1 →
      (HandleUserInteractions answeredPage (Events.click 1 3 0)).multiSeedList[k]? =
        answeredPage.multiSeedList[k]?) ∧
    (HandleUserInteractions answeredPage (Events.click 1 3 0)).multiSeedList.length =
        answeredPage.multiSeedList.length ∧
    HandleUserInteractions (HandleUserInteractions answeredPage (Events.click 1 3 0))
        (Events.click 1 3 0) =
      HandleUserInteractions answeredPage (Events.click 1 3 0) :=
  HandleUserInteractions_last_write_wins answeredPage 1 3 0
    { selectedIndex := 0, words := ["hotel", "bravo", "india", "echo"],
      clickables := List.replicate 4 clickable }
    (by decide) (by decide)

/-- Witness of C9: the fully answered sample page is navigated to again. -/
theorem OnNavigatedTo_quiz_is_fresh_witness :
    allSeedsSelected answeredPage = true ∧
    ∃ (pg' : VerifySeedPage) (rnd' : Rand),
      OnNavigatedTo sampleVocabulary answeredPage sampleRand = .ok (pg', rnd') ∧
      pg'.multiSeedList ≠ [] ∧
      (∀ entry ∈ pg'.multiSeedList, entry.selectedIndex = -1) ∧
      allSeedsSelected pg' = false ∧
      selectedSeedPhrase pg' = .ok "" :=
  ⟨by decide,
   OnNavigatedTo_quiz_is_fresh sampleVocabulary answeredPage sampleRand (by decide) (by decide)⟩

/-- C7, as stated, fails: with a three-word vocabulary and the valid index 0,
`getMultiSeed` returns no error value; the third draw calls `rand.Intn(0)`,
which panics. -/
theorem getMultiSeed_three_words_panics :
    getMultiSeed 0 ["alpha", "bravo", "charlie"] sampleRand =
      .error Fault.invalidArgumentToIntn := by
  rfl

/-- C7, amended: for every vocabulary with fewer than 4 words and every valid
real-word index, `getMultiSeed` returns neither an entry nor an error value:
it panics in `rand.Intn`, called on an empty range. -/
theorem getMultiSeed_small_vocabulary_panics (vocabulary : List String) (r : Int) (rnd : Rand)
    (hlen : len vocabulary < 4) (hr : 0 ≤ r ∧ r < len vocabulary) :
    getMultiSeed r vocabulary rnd = .error Fault.invalidArgumentToIntn := by
  obtain ⟨h0, h1⟩ := hr
  obtain ⟨n, rfl⟩ := Int.eq_ofNat_of_zero_le h0
  have hn : n < vocabulary.length := by simpa [len] using h1
  have hl : vocabulary.length < 4 := by simpa [len] using hlen
  have hpool : (vocabulary.take n ++ vocabulary.drop (n + 1)).length < 3 := by
    simp only [List.length_append, List.length_take, List.length_drop]
    omega
  rw [getMultiSeed]
  simp only [bind, Except.bind]
  rw [index_natCast _ _ hn, removeSeed_natCast _ _ hn]
  simp only []
  rw [getMultiSeed.loop_short 3 _ _ rnd hpool]

/-- Witness of C7 (amended): a two-word vocabulary, real word at index 1. -/
theorem getMultiSeed_small_vocabulary_panics_witness :
    getMultiSeed 1 ["alpha", "bravo"] sampleRand = .error Fault.invalidArgumentToIntn :=
  getMultiSeed_small_vocabulary_panics ["alpha", "bravo"] 1 sampleRand (by decide) (by decide)

/-- C8: the verification callback has exactly three outcomes. With no error
the password modal is dismissed, the backup-success page is displayed and the
result is true. With an error whose text is `dcr.ErrInvalid` an error modal
with the seed-validation-failed text is shown, the password modal is dismissed
without its error text being set, nothing is displayed and the result is false.
With any other error the password modal's error text is that error's text, the
modal stays, the page state is unchanged and the result is false. -/
theorem verifySeed_callback_three_outcomes
    (VerifySeedForWallet : String → String → Option String)
    (ErrInvalid StrSeedValidationFailed : String)
    (pg : VerifySeedPage) (password : String) (m : CreatePasswordModal) (seed : String)
    (hseed : selectedSeedPhrase pg = .ok seed) :
    (VerifySeedForWallet seed password = none →
      ∃ (pg' : VerifySeedPage) (m' : CreatePasswordModal),
        verifySeed.callback VerifySeedForWallet ErrInvalid StrSeedValidationFailed
          pg password m = .ok (true, pg', m') ∧
        m'.dismissed = true ∧ m'.serverError = m.serverError ∧
        pg'.displayed = pg.displayed ++ [Page.BackupSuccessPage] ∧
        pg'.shownModals = pg.shownModals ∧ pg'.multiSeedList = pg.multiSeedList) ∧
    (VerifySeedForWallet seed password = some ErrInvalid →
      ∃ (pg' : VerifySeedPage) (m' : CreatePasswordModal),
        verifySeed.callback VerifySeedForWallet ErrInvalid StrSeedValidationFailed
          pg password m = .ok (false, pg', m') ∧
        pg'.shownModals = pg.shownModals ++ [Modal.error StrSeedValidationFailed] ∧
        m'.dismissed = true ∧ m'.serverError = m.serverError ∧
        pg'.displayed = pg.displayed ∧ pg'.multiSeedList = pg.multiSeedList) ∧
    (∀ err : String, VerifySeedForWallet seed password = some err → err ≠ ErrInvalid →
      ∃ (m' : CreatePasswordModal),
        verifySeed.callback VerifySeedForWallet ErrInvalid StrSeedValidationFailed
          pg password m = .ok (false, pg, m') ∧
        m'.serverError = err ∧ m'.isLoading = false ∧ m'.dismissed = m.dismissed) := by
  refine ⟨?_, ?_, ?_⟩
  · intro h
    refine ⟨{ pg with displayed := pg.displayed ++ [Page.BackupSuccessPage] },
      { m with dismissed := true }, ?_, rfl, rfl, rfl, rfl, rfl⟩
    simp [verifySeed.callback, hseed, h, bind, Except.bind, pure, Except.pure]
  · intro h
    refine ⟨{ pg with shownModals := pg.shownModals ++ [Modal.error StrSeedValidationFailed] },
      { m with dismissed := true }, ?_, rfl, rfl, rfl, rfl, rfl⟩
    simp [verifySeed.callback, hseed, h, bind, Except.bind, pure, Except.pure]
  · intro err h hne
    refine ⟨{ m with isLoading := false, serverError := err }, ?_, rfl, rfl, rfl⟩
    simp [verifySeed.callback, hseed, h, hne, bind, Except.bind, pure, Except.pure]

/-- Witness of C8: a wallet that rejects every seed with the text "invalid",
called from the answered sample page. -/
theorem verifySeed_callback_three_outcomes_witness :
    selectedSeedPhrase answeredPage = .ok "alpha hotel" ∧
    ∃ (pg' : VerifySeedPage) (m' : CreatePasswordModal),
      verifySeed.callback (fun _ _ => some "invalid") "invalid" "seed validation failed"
          answeredPage "secret" NewCreatePasswordModal = .ok (false, pg', m') ∧
      pg'.shownModals = answeredPage.shownModals ++
        [Modal.error "seed validation failed"] ∧
      m'.dismissed = true ∧ m'.serverError = NewCreatePasswordModal.serverError ∧
      pg'.displayed = answeredPage.displayed ∧
      pg'.multiSeedList = answeredPage.multiSeedList :=
  ⟨by decide,
   (verifySeed_callback_three_outcomes (fun _ _ => some "invalid") "invalid"
      "seed validation failed"
      answeredPage "secret" NewCreatePasswordModal "alpha hotel" (by decide)).2.1 rfl⟩

/-- C10, as stated, fails: after `OnNavigatedFrom` the answered sample page
still holds its two quiz entries and their selections. -/
theorem OnNavigatedFrom_keeps_entries :
    (OnNavigatedFrom answeredPage).multiSeedList ≠ [] ∧
    (OnNavigatedFrom answeredPage).multiSeedList.map (fun entry => entry.selectedIndex) =
      [2, 0] := by
  decide

/-- C10, amended: `OnNavigatedFrom` leaves the page state unchanged, so
`multiSeedList` keeps the candidate words and selections of the visit; the old
entries have no influence on what the next `OnNavigatedTo` computes, which
replaces them. -/
theorem OnNavigatedFrom_leaves_state_unchanged (PGPWordList : List String)
    (pg : VerifySeedPage) (rnd : Rand) :
    OnNavigatedFrom pg = pg ∧
    (OnNavigatedFrom pg).multiSeedList = pg.multiSeedList ∧
    OnNavigatedTo PGPWordList (OnNavigatedFrom pg) rnd =
      OnNavigatedTo PGPWordList { pg with multiSeedList := [], listGroupSeed := [] } rnd :=
  ⟨rfl, rfl, rfl⟩

/-- C15: in every quiz state whose selections are `-1` or point at a candidate,
`selectedSeedPhrase` returns the selected candidate words of exactly the
answered entries, in entry order, joined by single spaces; the number of words
joined is the number of answered entries, and the result is the empty string
when no entry is answered. -/
theorem selectedSeedPhrase_joins_answered_words (pg : VerifySeedPage)
    (hsel : ∀ entry ∈ pg.multiSeedList, selectionInRange entry) :
    selectedSeedPhrase pg = .ok (strings.Join (answeredWords pg.multiSeedList) " ") ∧
    (answeredWords pg.multiSeedList).length =
      (pg.multiSeedList.filter (fun entry => decide (entry.selectedIndex ≠ -1))).length ∧
    ((∀ entry ∈ pg.multiSeedList, entry.selectedIndex = -1) →
      selectedSeedPhrase pg = .ok "") := by
  refine ⟨?_, answeredWords_length _ hsel, ?_⟩
  · simp only [selectedSeedPhrase, bind, Except.bind]
    rw [selectedSeedPhrase_loop_eq_answeredWords _ [] hsel]
    rfl
  · intro hnone
    simp only [selectedSeedPhrase, bind, Except.bind]
    rw [selectedSeedPhrase.loop_unanswered _ [] hnone]
    rfl

/-- Witness of C15: in the partly answered sample page the unanswered second
entry leaves no gap. -/
theorem selectedSeedPhrase_joins_answered_words_witness :
    selectedSeedPhrase partlyAnsweredPage = .ok "alpha golf" ∧
    selectedSeedPhrase partlyAnsweredPage =
      .ok (strings.Join (answeredWords partlyAnsweredPage.multiSeedList) " ") ∧
    (answeredWords partlyAnsweredPage.multiSeedList).length =
      (partlyAnsweredPage.multiSeedList.filter
        (fun entry => decide (entry.selectedIndex ≠ -1))).length ∧
    ((∀ entry ∈ partlyAnsweredPage.multiSeedList, entry.selectedIndex = -1) →
      selectedSeedPhrase partlyAnsweredPage = .ok "") :=
  ⟨by decide, selectedSeedPhrase_joins_answered_words partlyAnsweredPage (by decide)⟩

/-- C16: quiz generation is fault-free exactly under its preconditions.
`OnNavigatedTo` returns if and only if every space-separated word of the seed
occurs in the vocabulary and the vocabulary has at least 4 words, and otherwise
stops on an out-of-range index or on `rand.Intn` over an empty range;
`getMultiSeed` returns if and only if its index is valid and the vocabulary has
at least 4 words. For a word absent from the vocabulary `seedPosition` is `-1`
and `getMultiSeed` indexes the vocabulary at `-1`; an empty seed and a double
space both produce the empty word. -/
theorem OnNavigatedTo_fault_free_iff_preconditions (PGPWordList : List String)
    (pg : VerifySeedPage) (rnd : Rand) :
    ((∃ res, OnNavigatedTo PGPWordList pg rnd = .ok res) ↔
      ((∀ w ∈ strings.Split pg.seed ' ', w ∈ PGPWordList) ∧ 4 ≤ len PGPWordList)) ∧
    ((∃ res, OnNavigatedTo PGPWordList pg rnd = .ok res) ∨
      OnNavigatedTo PGPWordList pg rnd = .error Fault.indexOutOfRange ∨
      OnNavigatedTo PGPWordList pg rnd = .error Fault.invalidArgumentToIntn) ∧
    (∀ r : Int, (∃ res, getMultiSeed r PGPWordList rnd = .ok res) ↔
      (0 ≤ r ∧ r < len PGPWordList ∧ 4 ≤ len PGPWordList)) ∧
    (∀ w : String, w ∉ PGPWordList →
      seedPosition w PGPWordList = -1 ∧
      getMultiSeed (seedPosition w PGPWordList) PGPWordList rnd =
        .error Fault.indexOutOfRange) ∧
    strings.Split "" ' ' = [""] ∧
    strings.Split "alpha  bravo" ' ' = ["alpha", "", "bravo"] := by
  have hfault : ¬ ((∀ w ∈ strings.Split pg.seed ' ', w ∈ PGPWordList) ∧ 4 ≤ len PGPWordList) →
      OnNavigatedTo PGPWordList pg rnd = .error Fault.indexOutOfRange ∨
      OnNavigatedTo PGPWordList pg rnd = .error Fault.invalidArgumentToIntn := by
    intro hbad
    have hbad' : ¬ (4 ≤ PGPWordList.length ∧
        ∀ w ∈ strings.Split pg.seed ' ', w ∈ PGPWordList) := by
      rintro ⟨h1, h2⟩
      exact hbad ⟨h2, by simpa [len] using h1⟩
    rcases OnNavigatedTo_loop_faults PGPWordList (strings.Split pg.seed ' ') [] [] rnd
      (strings.Split_ne_nil _ _) hbad' with h | h
    · left
      rw [OnNavigatedTo]
      simp only [bind, Except.bind, h]
    · right
      rw [OnNavigatedTo]
      simp only [bind, Except.bind, h]
  have hok : ((∀ w ∈ strings.Split pg.seed ' ', w ∈ PGPWordList) ∧ 4 ≤ len PGPWordList) →
      ∃ res, OnNavigatedTo PGPWordList pg rnd = .ok res := by
    rintro ⟨h1, h2⟩
    obtain ⟨entries, rnd', hrun, _⟩ :=
      OnNavigatedTo_spec PGPWordList pg rnd (by simpa [len] using h2) h1
    exact ⟨_, hrun⟩
  refine ⟨⟨?_, hok⟩, ?_, fun r => getMultiSeed_ok_iff PGPWordList r rnd, ?_, by decide, by decide⟩
  · rintro ⟨res, hres⟩
    by_contra hbad
    rcases hfault hbad with h | h <;> rw [h] at hres <;> cases hres
  · by_cases hpre : (∀ w ∈ strings.Split pg.seed ' ', w ∈ PGPWordList) ∧ 4 ≤ len PGPWordList
    · exact Or.inl (hok hpre)
    · exact Or.inr (hfault hpre)
  · intro w hw
    have hpos : seedPosition w PGPWordList = -1 := by
      rcases seedPosition_loop_spec w PGPWordList 0 (le_refl _) with ⟨_, hres⟩ | ⟨n, _, hget, _⟩
      · exact hres
      · exact absurd (List.getElem?_mem hget) hw
    exact ⟨hpos, by rw [hpos]; exact getMultiSeed_out_of_range _ _ _ (Or.inl (by omega))⟩

/-- C17: a partial answer is never submitted. In a frame a click on the action
button shows the password modal of `verifySeed` if and only if `allSeedsSelected`
holds once the frame's candidate clicks are applied, and later frames keep all
entries selected; in such a state the phrase that the callback passes to
`VerifySeedForWallet` (the only argument at which the wallet is consulted) joins
exactly one word per quiz entry. Every layout enables
the action button exactly when `allSeedsSelected` is true. -/
theorem verifySeed_started_only_when_all_selected (pg : VerifySeedPage) (ev : Events) :
    (HandleUserInteractions pg ev).shownModals =
      pg.shownModals ++
        (if allSeedsSelected
            { pg with multiSeedList := HandleUserInteractions.outer ev pg.multiSeedList 0 } = true
          then List.replicate ev.actionButton (Modal.createPassword NewCreatePasswordModal)
          else []) ∧
    ((HandleUserInteractions pg ev).shownModals ≠ pg.shownModals ↔
      (0 < ev.actionButton ∧
        allSeedsSelected
          { pg with multiSeedList := HandleUserInteractions.outer ev pg.multiSeedList 0 } =
            true)) ∧
    (allSeedsSelected pg = true →
      ∀ ev' : Events, allSeedsSelected (HandleUserInteractions pg ev') = true) ∧
    (allSeedsSelected pg = true →
      (∀ entry ∈ pg.multiSeedList, selectionInRange entry) →
      ∃ ws : List String,
        ws.length = pg.multiSeedList.length ∧
        selectedSeedPhrase pg = .ok (strings.Join ws " ") ∧
        ∀ (wallet wallet' : String → String → Option String)
          (ErrInvalid StrSeedValidationFailed password : String) (m : CreatePasswordModal),
          wallet (strings.Join ws " ") password = wallet' (strings.Join ws " ") password →
          verifySeed.callback wallet ErrInvalid StrSeedValidationFailed pg password m =
            verifySeed.callback wallet' ErrInvalid StrSeedValidationFailed pg password m) ∧
    (layoutDesktop pg).actionButton.enabled = allSeedsSelected pg ∧
    (layoutMobile pg).actionButton.enabled = allSeedsSelected pg ∧
    (∀ currentAppWidth startMobileView : Int,
      (Layout pg currentAppWidth startMobileView).actionButton.enabled =
        allSeedsSelected pg) := by
  have hmodals : (HandleUserInteractions pg ev).shownModals =
      pg.shownModals ++
        (if allSeedsSelected
            { pg with multiSeedList := HandleUserInteractions.outer ev pg.multiSeedList 0 } = true
          then List.replicate ev.actionButton (Modal.createPassword NewCreatePasswordModal)
          else []) := by
    simp only [HandleUserInteractions]
    rw [HandleUserInteractions.action_shownModals]
  refine ⟨hmodals, ?_, ?_, ?_, rfl, rfl, ?_⟩
  · rw [hmodals]
    by_cases hall : allSeedsSelected
        { pg with multiSeedList := HandleUserInteractions.outer ev pg.multiSeedList 0 } = true
    · cases hn : ev.actionButton with
      | zero => simp [hall]
      | succ n => simp [hall, List.replicate_succ]
    · simp [hall]
  · intro hall ev'
    exact HandleUserInteractions_keeps_all_selected pg ev' hall
  · intro hall hsel
    have hphrase : selectedSeedPhrase pg =
        .ok (strings.Join (answeredWords pg.multiSeedList) " ") := by
      simp only [selectedSeedPhrase, bind, Except.bind]
      rw [selectedSeedPhrase_loop_eq_answeredWords _ [] hsel]
      rfl
    have hlen : (answeredWords pg.multiSeedList).length = pg.multiSeedList.length := by
      rw [answeredWords_length _ hsel, List.filter_eq_self.mpr]
      intro entry hmem
      have := (allSeedsSelected_eq_true_iff pg).mp hall entry hmem
      simpa using this
    refine ⟨answeredWords pg.multiSeedList, hlen, hphrase, ?_⟩
    intro wallet wallet' ErrInvalid Str password m hsame
    simp only [verifySeed.callback, hphrase, bind, Except.bind, hsame]
  · intro w v
    unfold Layout
    split <;> rfl

end seedbackup

namespace cryptomaterial

/-! ## Auxiliary facts about the editor -/

theorem lenString_pos_iff (s : String) : lenString s > 0 ↔ s ≠ "" := by
  cases s with
  | mk cs =>
    cases cs with
    | nil => simp [lenString, String.utf8ByteSize, String.utf8ByteSize.go]
    | cons c cs =>
      have hc := Char.utf8Size_pos c
      have hne : (String.mk (c :: cs)) ≠ "" := by
        intro h
        have := congrArg String.data h
        simp at this
      simp only [lenString, String.utf8ByteSize, String.utf8ByteSize.go, hne, ne_eq,
        not_false_eq_true, iff_true]
      omega

@[simp] theorem layout_reset_t (e : Editor) :
    (Editor.layout.reset e).t = e.t := rfl

@[simp] theorem layout_reset_Editor (e : Editor) :
    (Editor.layout.reset e).Editor = e.Editor := rfl

@[simp] theorem layout_reset_Hint (e : Editor) :
    (Editor.layout.reset e).Hint = e.Hint := rfl

@[simp] theorem layout_reset_errorLabel (e : Editor) :
    (Editor.layout.reset e).errorLabel = e.errorLabel := rfl

@[simp] theorem layout_reset_IsRequired (e : Editor) :
    (Editor.layout.reset e).IsRequired = e.IsRequired := rfl

@[simp] theorem layout_reset_requiredErrorText (e : Editor) :
    (Editor.layout.reset e).requiredErrorText = e.requiredErrorText := rfl

@[simp] theorem layout_reset_showHintOnFocus (e : Editor) :
    (Editor.layout.reset e).showHintOnFocus = e.showHintOnFocus := rfl

@[simp] theorem layout_reset_isDisableMenu (e : Editor) :
    (Editor.layout.reset e).isDisableMenu = e.isDisableMenu := rfl

@[simp] theorem layout_reset_isShowMenu (e : Editor) :
    (Editor.layout.reset e).isShowMenu = e.isShowMenu := rfl

@[simp] theorem layout_reset_TitleLabel_Text (e : Editor) :
    (Editor.layout.reset e).TitleLabel.Text = e.TitleLabel.Text := rfl

@[simp] theorem layout_title_t (e : Editor) :
    (Editor.layout.title e).t = e.t := by
  unfold Editor.layout.title
  split_ifs <;> rfl

@[simp] theorem layout_title_Editor (e : Editor) :
    (Editor.layout.title e).Editor = e.Editor := by
  unfold Editor.layout.title
  split_ifs <;> rfl

@[simp] theorem layout_title_errorLabel (e : Editor) :
    (Editor.layout.title e).errorLabel = e.errorLabel := by
  unfold Editor.layout.title
  split_ifs <;> rfl

@[simp] theorem layout_title_IsRequired (e : Editor) :
    (Editor.layout.title e).IsRequired = e.IsRequired := by
  unfold Editor.layout.title
  split_ifs <;> rfl

@[simp] theorem layout_title_requiredErrorText (e : Editor) :
    (Editor.layout.title e).requiredErrorText = e.requiredErrorText := by
  unfold Editor.layout.title
  split_ifs <;> rfl

@[simp] theorem layout_title_showHintOnFocus (e : Editor) :
    (Editor.layout.title e).showHintOnFocus = e.showHintOnFocus := by
  unfold Editor.layout.title
  split_ifs <;> rfl

@[simp] theorem layout_title_isDisableMenu (e : Editor) :
    (Editor.layout.title e).isDisableMenu = e.isDisableMenu := by
  unfold Editor.layout.title
  split_ifs <;> rfl

@[simp] theorem layout_title_isShowMenu (e : Editor) :
    (Editor.layout.title e).isShowMenu = e.isShowMenu := by
  unfold Editor.layout.title
  split_ifs <;> rfl

@[simp] theorem layout_title_LineColor (e : Editor) :
    (Editor.layout.title e).LineColor = e.LineColor := by
  unfold Editor.layout.title
  split_ifs <;> rfl

@[simp] theorem layout_title_TitleLabel_Color (e : Editor) :
    (Editor.layout.title e).TitleLabel.Color = e.TitleLabel.Color := by
  unfold Editor.layout.title
  split_ifs <;> rfl

@[simp] theorem layout_focus_t (e : Editor) (focused : Bool) :
    (Editor.layout.focus e focused).t = e.t := by
  unfold Editor.layout.focus
  cases focused <;> cases h1 : e.Editor.ReadOnly <;> cases h2 : e.showHintOnFocus <;>
    simp [h1, h2]

@[simp] theorem layout_focus_Editor (e : Editor) (focused : Bool) :
    (Editor.layout.focus e focused).Editor = e.Editor := by
  unfold Editor.layout.focus
  cases focused <;> cases h1 : e.Editor.ReadOnly <;> cases h2 : e.showHintOnFocus <;>
    simp [h1, h2]

@[simp] theorem layout_focus_errorLabel (e : Editor) (focused : Bool) :
    (Editor.layout.focus e focused).errorLabel = e.errorLabel := by
  unfold Editor.layout.focus
  cases focused <;> cases h1 : e.Editor.ReadOnly <;> cases h2 : e.showHintOnFocus <;>
    simp [h1, h2]

@[simp] theorem layout_focus_IsRequired (e : Editor) (focused : Bool) :
    (Editor.layout.focus e focused).IsRequired = e.IsRequired := by
  unfold Editor.layout.focus
  cases focused <;> cases h1 : e.Editor.ReadOnly <;> cases h2 : e.showHintOnFocus <;>
    simp [h1, h2]

@[simp] theorem layout_focus_requiredErrorText (e : Editor) (focused : Bool) :
    (Editor.layout.focus e focused).requiredErrorText = e.requiredErrorText := by
  unfold Editor.layout.focus
  cases focused <;> cases h1 : e.Editor.ReadOnly <;> cases h2 : e.showHintOnFocus <;>
    simp [h1, h2]

@[simp] theorem layout_focus_showHintOnFocus (e : Editor) (focused : Bool) :
    (Editor.layout.focus e focused).showHintOnFocus = e.showHintOnFocus := by
  unfold Editor.layout.focus
  cases focused <;> cases h1 : e.Editor.ReadOnly <;> cases h2 : e.showHintOnFocus <;>
    simp [h1, h2]

@[simp] theorem layout_focus_isDisableMenu (e : Editor) (focused : Bool) :
    (Editor.layout.focus e focused).isDisableMenu = e.isDisableMenu := by
  unfold Editor.layout.focus
  cases focused <;> cases h1 : e.Editor.ReadOnly <;> cases h2 : e.showHintOnFocus <;>
    simp [h1, h2]

@[simp] theorem layout_focus_isShowMenu (e : Editor) (focused : Bool) :
    (Editor.layout.focus e focused).isShowMenu = e.isShowMenu := by
  unfold Editor.layout.focus
  cases focused <;> cases h1 : e.Editor.ReadOnly <;> cases h2 : e.showHintOnFocus <;>
    simp [h1, h2]

@[simp] theorem layout_required_t (e : Editor) (focused : Bool) :
    (Editor.layout.required e focused).t = e.t := by
  unfold Editor.layout.required
  split_ifs <;> rfl

@[simp] theorem layout_required_Editor (e : Editor) (focused : Bool) :
    (Editor.layout.required e focused).Editor = e.Editor := by
  unfold Editor.layout.required
  split_ifs <;> rfl

@[simp] theorem layout_required_Hint (e : Editor) (focused : Bool) :
    (Editor.layout.required e focused).Hint = e.Hint := by
  unfold Editor.layout.required
  split_ifs <;> rfl

@[simp] theorem layout_required_IsRequired (e : Editor) (focused : Bool) :
    (Editor.layout.required e focused).IsRequired = e.IsRequired := by
  unfold Editor.layout.required
  split_ifs <;> rfl

@[simp] theorem layout_required_requiredErrorText (e : Editor) (focused : Bool) :
    (Editor.layout.required e focused).requiredErrorText = e.requiredErrorText := by
  unfold Editor.layout.required
  split_ifs <;> rfl

@[simp] theorem layout_required_showHintOnFocus (e : Editor) (focused : Bool) :
    (Editor.layout.required e focused).showHintOnFocus = e.showHintOnFocus := by
  unfold Editor.layout.required
  split_ifs <;> rfl

@[simp] theorem layout_required_isDisableMenu (e : Editor) (focused : Bool) :
    (Editor.layout.required e focused).isDisableMenu = e.isDisableMenu := by
  unfold Editor.layout.required
  split_ifs <;> rfl

@[simp] theorem layout_required_isShowMenu (e : Editor) (focused : Bool) :
    (Editor.layout.required e focused).isShowMenu = e.isShowMenu := by
  unfold Editor.layout.required
  split_ifs <;> rfl

@[simp] theorem layout_required_TitleLabel (e : Editor) (focused : Bool) :
    (Editor.layout.required e focused).TitleLabel = e.TitleLabel := by
  unfold Editor.layout.required
  split_ifs <;> rfl

@[simp] theorem layout_required_errorLabel_Color (e : Editor) (focused : Bool) :
    (Editor.layout.required e focused).errorLabel.Color = e.errorLabel.Color := by
  unfold Editor.layout.required
  split_ifs <;> rfl

@[simp] theorem layout_error_t (e : Editor) :
    (Editor.layout.error e).t = e.t := by
  unfold Editor.layout.error
  split_ifs <;> rfl

@[simp] theorem layout_error_Editor (e : Editor) :
    (Editor.layout.error e).Editor = e.Editor := by
  unfold Editor.layout.error
  split_ifs <;> rfl

@[simp] theorem layout_error_Hint (e : Editor) :
    (Editor.layout.error e).Hint = e.Hint := by
  unfold Editor.layout.error
  split_ifs <;> rfl

@[simp] theorem layout_error_errorLabel (e : Editor) :
    (Editor.layout.error e).errorLabel = e.errorLabel := by
  unfold Editor.layout.error
  split_ifs <;> rfl

@[simp] theorem layout_error_IsRequired (e : Editor) :
    (Editor.layout.error e).IsRequired = e.IsRequired := by
  unfold Editor.layout.error
  split_ifs <;> rfl

@[simp] theorem layout_error_requiredErrorText (e : Editor) :
    (Editor.layout.error e).requiredErrorText = e.requiredErrorText := by
  unfold Editor.layout.error
  split_ifs <;> rfl

@[simp] theorem layout_error_showHintOnFocus (e : Editor) :
    (Editor.layout.error e).showHintOnFocus = e.showHintOnFocus := by
  unfold Editor.layout.error
  split_ifs <;> rfl

@[simp] theorem layout_error_isDisableMenu (e : Editor) :
    (Editor.layout.error e).isDisableMenu = e.isDisableMenu := by
  unfold Editor.layout.error
  split_ifs <;> rfl

@[simp] theorem layout_error_isShowMenu (e : Editor) :
    (Editor.layout.error e).isShowMenu = e.isShowMenu := by
  unfold Editor.layout.error
  split_ifs <;> rfl

@[simp] theorem layout_error_TitleLabel_Text (e : Editor) :
    (Editor.layout.error e).TitleLabel.Text = e.TitleLabel.Text := by
  unfold Editor.layout.error
  split_ifs <;> rfl

@[simp] theorem layout_reset_LineColor (e : Editor) :
    (Editor.layout.reset e).LineColor = e.t.Color.Gray2 := rfl

@[simp] theorem layout_reset_TitleLabel_Color (e : Editor) :
    (Editor.layout.reset e).TitleLabel.Color = e.t.Color.GrayText3 := rfl

theorem layout_title_TitleLabel_Text (e : Editor) :
    (Editor.layout.title e).TitleLabel.Text =
      if e.Editor.Len > 0 ∧ lenString e.Hint > 0 then e.Hint
      else if e.Hint = "" then "" else e.TitleLabel.Text := by
  unfold Editor.layout.title
  split_ifs <;> rfl

theorem layout_title_Hint (e : Editor) :
    (Editor.layout.title e).Hint =
      if e.Editor.Len > 0 ∧ lenString e.Hint > 0 then e.Hint
      else if e.Hint = "" then e.TitleLabel.Text else e.Hint := by
  unfold Editor.layout.title
  split_ifs <;> rfl

theorem layout_focus_TitleLabel_Text (e : Editor) (focused : Bool) :
    (Editor.layout.focus e focused).TitleLabel.Text =
      if focused = true then e.Hint else e.TitleLabel.Text := by
  unfold Editor.layout.focus
  cases focused <;> cases h1 : e.Editor.ReadOnly <;> cases h2 : e.showHintOnFocus <;>
    simp [h1, h2]

theorem layout_focus_Hint (e : Editor) (focused : Bool) :
    (Editor.layout.focus e focused).Hint =
      if focused = true then (if e.showHintOnFocus = true then e.Hint else "") else e.Hint := by
  unfold Editor.layout.focus
  cases focused <;> cases h1 : e.Editor.ReadOnly <;> cases h2 : e.showHintOnFocus <;>
    simp [h1, h2]

theorem layout_focus_TitleLabel_Color (e : Editor) (focused : Bool) :
    (Editor.layout.focus e focused).TitleLabel.Color =
      if focused = true then e.t.Color.Primary else e.TitleLabel.Color := by
  unfold Editor.layout.focus
  cases focused <;> cases h1 : e.Editor.ReadOnly <;> cases h2 : e.showHintOnFocus <;>
    simp [h1, h2]

theorem layout_focus_LineColor (e : Editor) (focused : Bool) :
    (Editor.layout.focus e focused).LineColor =
      if focused = true ∧ e.Editor.ReadOnly = false then e.t.Color.Primary
      else e.LineColor := by
  unfold Editor.layout.focus
  cases focused <;> cases h1 : e.Editor.ReadOnly <;> cases h2 : e.showHintOnFocus <;>
    simp [h1, h2]

theorem layout_required_errorLabel_Text (e : Editor) (focused : Bool) :
    (Editor.layout.required e focused).errorLabel.Text =
      if e.IsRequired = true ∧ focused = false ∧ e.Editor.Len = 0
        then e.requiredErrorText else e.errorLabel.Text := by
  unfold Editor.layout.required
  cases focused
  · simp only [Bool.not_false, true_and, and_true]
    split_ifs <;> rfl
  · simp

theorem layout_required_LineColor (e : Editor) (focused : Bool) :
    (Editor.layout.required e focused).LineColor =
      if e.IsRequired = true ∧ focused = false ∧ e.Editor.Len = 0
        then e.t.Color.Danger else e.LineColor := by
  unfold Editor.layout.required
  cases focused
  · simp only [Bool.not_false, true_and, and_true]
    split_ifs <;> rfl
  · simp

theorem layout_error_LineColor (e : Editor) :
    (Editor.layout.error e).LineColor =
      if e.errorLabel.Text ≠ "" then e.t.Color.Danger else e.LineColor := by
  unfold Editor.layout.error
  split_ifs <;> rfl

theorem layout_error_TitleLabel_Color (e : Editor) :
    (Editor.layout.error e).TitleLabel.Color =
      if e.errorLabel.Text ≠ "" then e.t.Color.Danger else e.TitleLabel.Color := by
  unfold Editor.layout.error
  split_ifs <;> rfl

theorem editorMenusLayout_fst (e : Editor) (gtx : Context) :
    (e.editorMenusLayout gtx).1 =
      { e with
        isShowMenu :=
          e.isShowMenu && (gtx.Focused || gtx.copyHovered || gtx.pasteHovered) } := by
  unfold Editor.editorMenusLayout
  simp only []
  split_ifs <;> rfl

theorem layout_fst (e : Editor) (gtx : Context) :
    ∃ shown : Bool,
      (e.layout gtx).1 =
        { (Editor.layout.error
            (Editor.layout.required
              (Editor.layout.focus (Editor.layout.title (Editor.layout.reset e)) gtx.Focused)
              gtx.Focused)) with isShowMenu := shown } := by
  unfold Editor.layout
  simp only []
  split_ifs <;> first | exact ⟨_, editorMenusLayout_fst _ _⟩ | exact ⟨_, rfl⟩

theorem layout_errorLabel_Text (e : Editor) (gtx : Context) :
    (e.layout gtx).1.errorLabel.Text =
      if e.IsRequired = true ∧ gtx.Focused = false ∧ e.Editor.Len = 0
        then e.requiredErrorText else e.errorLabel.Text := by
  obtain ⟨shown, hshown⟩ := layout_fst e gtx
  rw [hshown]
  simp [layout_required_errorLabel_Text]

theorem layout_LineColor (e : Editor) (gtx : Context) :
    (e.layout gtx).1.LineColor =
      if (e.layout gtx).1.errorLabel.Text ≠ "" then e.t.Color.Danger
      else if e.IsRequired = true ∧ gtx.Focused = false ∧ e.Editor.Len = 0
        then e.t.Color.Danger
      else if gtx.Focused = true ∧ e.Editor.ReadOnly = false then e.t.Color.Primary
      else e.t.Color.Gray2 := by
  rw [layout_errorLabel_Text]
  obtain ⟨shown, hshown⟩ := layout_fst e gtx
  rw [hshown]
  simp [layout_error_LineColor, layout_required_LineColor, layout_focus_LineColor,
    layout_required_errorLabel_Text]

theorem layout_TitleLabel_Color (e : Editor) (gtx : Context) :
    (e.layout gtx).1.TitleLabel.Color =
      if (e.layout gtx).1.errorLabel.Text ≠ "" then e.t.Color.Danger
      else if gtx.Focused = true then e.t.Color.Primary
      else e.t.Color.GrayText3 := by
  rw [layout_errorLabel_Text]
  obtain ⟨shown, hshown⟩ := layout_fst e gtx
  rw [hshown]
  simp [layout_error_TitleLabel_Color, layout_focus_TitleLabel_Color,
    layout_required_errorLabel_Text]

theorem layout_TitleLabel_Text (e : Editor) (gtx : Context) :
    (e.layout gtx).1.TitleLabel.Text =
      if gtx.Focused = true then
        (if e.Editor.Len > 0 ∧ lenString e.Hint > 0 then e.Hint
          else if e.Hint = "" then e.TitleLabel.Text else e.Hint)
      else
        (if e.Editor.Len > 0 ∧ lenString e.Hint > 0 then e.Hint
          else if e.Hint = "" then "" else e.TitleLabel.Text) := by
  obtain ⟨shown, hshown⟩ := layout_fst e gtx
  rw [hshown]
  simp [layout_focus_TitleLabel_Text, layout_title_TitleLabel_Text, layout_title_Hint]

theorem layout_Hint (e : Editor) (gtx : Context) :
    (e.layout gtx).1.Hint =
      if gtx.Focused = true ∧ e.showHintOnFocus = false then ""
      else if e.Editor.Len > 0 ∧ lenString e.Hint > 0 then e.Hint
      else if e.Hint = "" then e.TitleLabel.Text else e.Hint := by
  obtain ⟨shown, hshown⟩ := layout_fst e gtx
  rw [hshown]
  cases hf : gtx.Focused <;> cases hs : e.showHintOnFocus <;>
    simp [layout_focus_Hint, layout_title_Hint, hs]

theorem layout_frame (e : Editor) (gtx : Context) :
    (e.layout gtx).1.t = e.t ∧ (e.layout gtx).1.Editor = e.Editor ∧
    (e.layout gtx).1.IsRequired = e.IsRequired ∧
    (e.layout gtx).1.requiredErrorText = e.requiredErrorText ∧
    (e.layout gtx).1.showHintOnFocus = e.showHintOnFocus := by
  obtain ⟨shown, hshown⟩ := layout_fst e gtx
  rw [hshown]
  simp

/-! ## Claims about the editor -/

/-- C11, as stated, fails: a required, empty editor that has the focus gets no
error text from a layout pass, `HasError` stays false and the line takes the
primary colour; and with an empty required-error text `HasError` stays false
even without focus. -/
theorem layout_required_empty_without_error :
    requiredEditor.IsRequired = true ∧ requiredEditor.Editor.Len = 0 ∧
    (requiredEditor.layout focusedFrame).1.errorLabel.Text ≠
      requiredEditor.requiredErrorText ∧
    (requiredEditor.layout focusedFrame).1.HasError = false ∧
    (requiredEditor.layout focusedFrame).1.LineColor = sampleTheme.Color.Primary ∧
    sampleTheme.Color.Primary ≠ sampleTheme.Color.Danger ∧
    ((requiredEditor.SetRequiredErrorText "").layout idleFrame).1.HasError = false := by
  decide

/-- C11, amended: for every editor with `IsRequired` set whose content is empty
and which does not have the focus, after a layout pass the error label text is
the required-error text and the line colour is the theme's danger colour;
`HasError` is then true exactly when the required-error text is not empty. The
required-error text is "Field is required" in a new editor and is replaced by
`SetRequiredErrorText`. -/
theorem layout_required_unfocused_empty_shows_error (e : Editor) (gtx : Context)
    (hreq : e.IsRequired = true) (hempty : e.Editor.Len = 0) (hfocus : gtx.Focused = false) :
    (e.layout gtx).1.errorLabel.Text = e.requiredErrorText ∧
    (e.layout gtx).1.LineColor = e.t.Color.Danger ∧
    ((e.layout gtx).1.HasError = true ↔ e.requiredErrorText ≠ "") ∧
    (∀ (t : Theme) (editor : widget.Editor) (hint : String),
      (t.Editor editor hint).requiredErrorText = "Field is required") ∧
    (∀ txt : String, (e.SetRequiredErrorText txt).requiredErrorText = txt) := by
  have htext : (e.layout gtx).1.errorLabel.Text = e.requiredErrorText := by
    rw [layout_errorLabel_Text, if_pos ⟨hreq, hfocus, hempty⟩]
  refine ⟨htext, ?_, ?_, fun _ _ _ => rfl, fun _ => rfl⟩
  · rw [layout_LineColor]
    split_ifs <;> first | rfl | (exfalso; simp_all)
  · simp [Editor.HasError, htext]

/-- Witness of C11 (amended): the required sample editor laid out without
focus. -/
theorem layout_required_unfocused_empty_shows_error_witness :
    (requiredEditor.layout idleFrame).1.errorLabel.Text = "Field is required" ∧
    (requiredEditor.layout idleFrame).1.LineColor = sampleTheme.Color.Danger ∧
    (requiredEditor.layout idleFrame).1.HasError = true := by
  have h := layout_required_unfocused_empty_shows_error requiredEditor idleFrame
    (by decide) (by decide) (by decide)
  exact ⟨h.1, h.2.1, h.2.2.1.mpr (by decide)⟩

/-- C12: the password mask toggle. In a frame with a click on the show/hide
button (and none on the editor icon button) `handleEvents` turns the mask `'*'`
into `0` and `0` into `'*'` and leaves any other mask unchanged; a second such
frame restores the original mask. `EditorPassword` sets the mask to `'*'`. -/
theorem handleEvents_toggles_mask (callback : Option (Editor → Editor))
    (e : Editor) (gtx : Context)
    (hclick : gtx.showHidePasswordClicked = true)
    (hicon : gtx.editorIconButtonClicked = false) :
    ∃ (e' : Editor) (cmds : List Command),
      Editor.handleEvents callback e gtx = .ok (e', cmds) ∧
      (e.Editor.Mask = (Char.toNat '*' : Int) → e'.Editor.Mask = 0) ∧
      (e.Editor.Mask = 0 → e'.Editor.Mask = (Char.toNat '*' : Int)) ∧
      (e.Editor.Mask ≠ (Char.toNat '*' : Int) → e.Editor.Mask ≠ 0 →
        e'.Editor.Mask = e.Editor.Mask) ∧
      (∀ gtx2 : Context, gtx2.showHidePasswordClicked = true →
        gtx2.editorIconButtonClicked = false →
        ∃ (e'' : Editor) (cmds2 : List Command),
          Editor.handleEvents callback e' gtx2 = .ok (e'', cmds2) ∧
          e''.Editor.Mask = e.Editor.Mask) ∧
      (∀ (t : Theme) (editor : widget.Editor) (hint : String),
        (t.EditorPassword editor hint).Editor.Mask = (Char.toNat '*' : Int)) := by
  have hstar : (Char.toNat '*' : Int) ≠ 0 := by decide
  have step : ∀ (x : Editor) (g : Context), g.showHidePasswordClicked = true →
      g.editorIconButtonClicked = false →
      ∃ (x' : Editor) (cs : List Command),
        Editor.handleEvents callback x g = .ok (x', cs) ∧
        x'.Editor.Mask =
          (if x.Editor.Mask = (Char.toNat '*' : Int) then 0
            else if x.Editor.Mask = 0 then (Char.toNat '*' : Int) else x.Editor.Mask) := by
    intro x g h1 h2
    unfold Editor.handleEvents
    simp only [h1, h2, if_true, bind, Except.bind, pure, Except.pure]
    cases h3 : g.copyClicked <;> cases h4 : g.pasteClicked <;>
      refine ⟨_, _, rfl, ?_⟩ <;> split_ifs <;> rfl
  obtain ⟨e', cmds, hrun, hmask⟩ := step e gtx hclick hicon
  refine ⟨e', cmds, hrun, ?_, ?_, ?_, ?_, fun _ _ _ => rfl⟩
  · intro h
    rw [hmask, if_pos h]
  · intro h
    have hne : e.Editor.Mask ≠ (Char.toNat '*' : Int) := by
      rw [h]
      exact fun heq => hstar heq.symm
    rw [hmask, if_neg hne, if_pos h]
  · intro h1 h2
    rw [hmask, if_neg h1, if_neg h2]
  · intro gtx2 hc2 hi2
    obtain ⟨e'', cmds2, hrun2, hmask2⟩ := step e' gtx2 hc2 hi2
    refine ⟨e'', cmds2, hrun2, ?_⟩
    by_cases h1 : e.Editor.Mask = (Char.toNat '*' : Int)
    · have he' : e'.Editor.Mask = 0 := by rw [hmask, if_pos h1]
      rw [hmask2, he', if_neg (fun heq => hstar heq.symm), if_pos rfl, h1]
    · by_cases h2 : e.Editor.Mask = 0
      · have he' : e'.Editor.Mask = (Char.toNat '*' : Int) := by
          rw [hmask, if_neg h1, if_pos h2]
        rw [hmask2, he', if_pos rfl, h2]
      · have he' : e'.Editor.Mask = e.Editor.Mask := by rw [hmask, if_neg h1, if_neg h2]
        rw [hmask2, he', if_neg h1, if_neg h2]

/-- Witness of C12: a password editor whose show/hide button is clicked. -/
theorem handleEvents_toggles_mask_witness :
    ∃ (e' : Editor) (cmds : List Command),
      Editor.handleEvents none (sampleTheme.EditorPassword emptyWidget "Password")
        { idleFrame with showHidePasswordClicked := true } = .ok (e', cmds) ∧
      e'.Editor.Mask = 0 := by
  obtain ⟨e', cmds, hrun, hstar, _⟩ :=
    handleEvents_toggles_mask none (sampleTheme.EditorPassword emptyWidget "Password")
      { idleFrame with showHidePasswordClicked := true } (by decide) (by decide)
  exact ⟨e', cmds, hrun, hstar (by decide)⟩

/-- C13: the gating of the copy/paste menu. After `editorMenusLayout` the menu
flag is set exactly when it was set before and the editor has the focus or the
pointer hovers the copy or the paste button; the menu is laid out exactly when
the flag is set, and then the copy item is one of its children if and only if
the selected text is not empty, while the paste item always is. -/
theorem editorMenusLayout_gates_menu (e : Editor) (gtx : Context) :
    (e.editorMenusLayout gtx).1.isShowMenu =
      (e.isShowMenu && (gtx.Focused || gtx.copyHovered || gtx.pasteHovered)) ∧
    ((e.editorMenusLayout gtx).2.isSome = (e.editorMenusLayout gtx).1.isShowMenu) ∧
    (∀ items : List MenuChild, (e.editorMenusLayout gtx).2 = some items →
      (MenuChild.copy ∈ items ↔ e.Editor.SelectedText ≠ "") ∧
      MenuChild.paste ∈ items) := by
  refine ⟨by rw [editorMenusLayout_fst], ?_, ?_⟩
  · rw [editorMenusLayout_fst]
    unfold Editor.editorMenusLayout
    simp only []
    split_ifs with h1 h2 <;> simp_all
  · intro items hitems
    unfold Editor.editorMenusLayout at hitems
    simp only [] at hitems
    have hsel := lenString_pos_iff e.Editor.SelectedText
    split_ifs at hitems with h1 h2
    · have hi : items = [MenuChild.copy, MenuChild.line, MenuChild.paste] := by
        simpa using hitems.symm
      have hne : e.Editor.SelectedText ≠ "" := hsel.mp h2
      simp [hi, hne]
    · have hi : items = [MenuChild.paste] := by simpa using hitems.symm
      have hemp : e.Editor.SelectedText = "" := by
        by_contra hne
        exact h2 (hsel.mpr hne)
      simp [hi, hemp]

/-- C14 against the code: the title is `h` after one layout pass whenever the
editor has the focus, and whenever its content is non-empty and the label is
held in `Hint`; but the editor that holds the label "Password" in
`TitleLabel.Text` with an empty hint, has the content "abc" and no focus, comes
out of one layout pass with an empty title (the label is moved to `Hint`), and
shows the title only after a second pass. -/
theorem layout_title_lost_for_one_pass :
    (∀ (e : Editor) (gtx : Context) (h : String), h ≠ "" →
      (e.Hint = h ∨ (e.Hint = "" ∧ e.TitleLabel.Text = h)) →
      (gtx.Focused = true ∨ (e.Editor.Len > 0 ∧ e.Hint = h)) →
      (e.layout gtx).1.TitleLabel.Text = h) ∧
    (typedEditor.Hint = "" ∧ typedEditor.TitleLabel.Text = "Password" ∧
      typedEditor.Editor.Len > 0 ∧ idleFrame.Focused = false ∧
      (typedEditor.layout idleFrame).1.TitleLabel.Text = "" ∧
      (typedEditor.layout idleFrame).1.Hint = "Password" ∧
      ((typedEditor.layout idleFrame).1.layout idleFrame).1.TitleLabel.Text = "Password") := by
  refine ⟨?_, by decide⟩
  intro e gtx h hne hheld hshown
  rw [layout_TitleLabel_Text]
  have hlen := lenString_pos_iff e.Hint
  rcases hshown with hf | ⟨hl, hh⟩
  · rw [if_pos hf]
    rcases hheld with hh | ⟨hh, ht⟩
    · have hne' : e.Hint ≠ "" := hh ▸ hne
      split_ifs <;> exact hh
    · rw [if_neg (fun hc => (hlen.mp hc.2) hh), if_pos hh, ht]
  · have hne' : e.Hint ≠ "" := hh ▸ hne
    have hpos : e.Editor.Len > 0 ∧ lenString e.Hint > 0 := ⟨hl, hlen.mpr hne'⟩
    split_ifs <;> exact hh

/-- C18: the error state is sticky across layout passes. A pass in which the
editor is focused, non-empty or not required leaves the error label text
unchanged. With a non-empty required-error text an editor that has an error
before a pass has one after it, with line and title in the danger colour,
whatever the focus and the content. So a required error raised on an empty
field is still there after the field is filled or focused and laid out again,
and only `ClearError` or `SetError("")` removes it. -/
theorem layout_keeps_error (e : Editor) (gtx : Context) :
    ((gtx.Focused = true ∨ e.Editor.Len ≠ 0 ∨ e.IsRequired = false) →
      (e.layout gtx).1.errorLabel.Text = e.errorLabel.Text) ∧
    (e.requiredErrorText ≠ "" → e.HasError = true →
      (e.layout gtx).1.HasError = true ∧
      (e.layout gtx).1.LineColor = e.t.Color.Danger ∧
      (e.layout gtx).1.TitleLabel.Color = e.t.Color.Danger) ∧
    (e.IsRequired = true → e.Editor.Len = 0 → gtx.Focused = false →
      e.requiredErrorText ≠ "" →
      ∀ (content : widget.Editor) (gtx2 : Context),
        (({ (e.layout gtx).1 with Editor := content }).layout gtx2).1.HasError = true ∧
        (({ (e.layout gtx).1 with Editor := content }).layout gtx2).1.errorLabel.Text =
          e.requiredErrorText) ∧
    (e.layout gtx).1.ClearError.HasError = false ∧
    ((e.layout gtx).1.SetError "").HasError = false := by
  have hsticky : ∀ (x : Editor) (g : Context), x.requiredErrorText ≠ "" →
      x.errorLabel.Text ≠ "" → (x.layout g).1.errorLabel.Text ≠ "" := by
    intro x g hreq herr
    rw [layout_errorLabel_Text]
    split_ifs
    · exact hreq
    · exact herr
  refine ⟨?_, ?_, ?_, by simp [Editor.ClearError, Editor.HasError],
    by simp [Editor.SetError, Editor.HasError]⟩
  · intro h
    rw [layout_errorLabel_Text, if_neg]
    rintro ⟨h1, h2, h3⟩
    rcases h with h | h | h
    · rw [h] at h2
      cases h2
    · exact h h3
    · rw [h] at h1
      cases h1
  · intro hreq herr
    have herr' : e.errorLabel.Text ≠ "" := by simpa [Editor.HasError] using herr
    have hafter := hsticky e gtx hreq herr'
    refine ⟨by simpa [Editor.HasError] using hafter, ?_, ?_⟩
    · rw [layout_LineColor, if_pos hafter]
    · rw [layout_TitleLabel_Color, if_pos hafter]
  · intro hreq hempty hfocus hne content gtx2
    have hraised : (e.layout gtx).1.errorLabel.Text = e.requiredErrorText := by
      rw [layout_errorLabel_Text, if_pos ⟨hreq, hfocus, hempty⟩]
    obtain ⟨_, _, hreq', htext', _⟩ := layout_frame e gtx
    have hsecond : (({ (e.layout gtx).1 with Editor := content }).layout gtx2).1.errorLabel.Text =
        e.requiredErrorText := by
      rw [layout_errorLabel_Text]
      split_ifs
      · exact htext'
      · exact hraised
    exact ⟨by simp [Editor.HasError, hsecond, hne], hsecond⟩

end cryptomaterial
